import Mathlib

/-!
Verification of the ace-engine-core control plane against its specification.

The development shallowly embeds the TypeScript sources:
* `src/core/bus.ts` — packet validation, the security overlay and the two
  publish channels;
* the `CognitiveControlLayer` (focus-state machine, frustration counter);
* the `ExecutiveFunctionLayer` (DAG plan scheduling);
* `ReflectionTriggerEngine` (the detector suite and its cooldown map);
* the `TaskProsecutionLayer` (sandbox check and tool execution).

JavaScript runtime values carried in packets (`data`, `parameters`, tool
arguments) are modelled by the `JVal` type below; machine floats that the
sources only ever compare are modelled as `ℚ` (thresholds, scores,
progress values) or `Int` (millisecond timestamps).  Asynchronous handlers
are embedded as pure state-transition functions returning the list of
packets they publish, in publication order; a JavaScript exception aborting
a handler corresponds to an `Except.error` result, so "nothing is emitted
after a throw" is part of the embedding exactly as it is of JS semantics.
Nondeterministic inputs of the sources (`Date.now()`, `crypto.randomUUID()`)
are explicit parameters.
-/

set_option maxHeartbeats 2000000

mutual
/-- JavaScript values as far as the embedded code inspects them: `undefined`,
`null`, booleans, numbers (the sources only store and compare integral
timestamps and counters, so `Int`), strings, and objects as ordered key/value
field lists (JS objects preserve insertion order and have no duplicate keys). -/
inductive JVal where
  | undef : JVal
  | null : JVal
  | bool : Bool → JVal
  | num : Int → JVal
  | str : String → JVal
  | obj : JFields → JVal
deriving DecidableEq

/-- The field list of a `JVal.obj`, in insertion order. -/
inductive JFields where
  | nil : JFields
  | cons : String → JVal → JFields → JFields
deriving DecidableEq
end

instance instDecEqExcept {ε α : Type} [DecidableEq ε] [DecidableEq α] :
    DecidableEq (Except ε α) := fun a b =>
  match a, b with
  | .ok x, .ok y =>
      if h : x = y then .isTrue (by rw [h]) else .isFalse (by simp [h])
  | .error x, .error y =>
      if h : x = y then .isTrue (by rw [h]) else .isFalse (by simp [h])
  | .ok _, .error _ => .isFalse (by simp)
  | .error _, .ok _ => .isFalse (by simp)

/-- Property lookup `fs[k]` on an object's fields: a missing key reads as
`undefined`, exactly as in JavaScript. -/
def jLookup (fs : JFields) (k : String) : JVal :=
  match fs with
  | .nil => .undef
  | .cons k' v rest => if k' = k then v else jLookup rest k

/-- Property access `v[k]`: on a non-object it reads as `undefined`
(the embedded code only performs such accesses behind object guards). -/
def jGet (v : JVal) (k : String) : JVal :=
  match v with
  | .obj fs => jLookup fs k
  | _ => JVal.undef

/-- Property lookup distinguishing a present key from an absent one
(used to state theorems about keys that exist in a payload). -/
def jLookupOpt (fs : JFields) (k : String) : Option JVal :=
  match fs with
  | .nil => none
  | .cons k' v rest => if k' = k then some v else jLookupOpt rest k

/-- `Object.keys`, in insertion order. -/
def jKeys (fs : JFields) : List String :=
  match fs with
  | .nil => []
  | .cons k _ rest => k :: jKeys rest

/-- `typeof v` of JavaScript. -/
def jsTypeof (v : JVal) : String :=
  match v with
  | .undef => "undefined"
  | .null => "object"
  | .bool _ => "boolean"
  | .num _ => "number"
  | .str _ => "string"
  | .obj _ => "object"

/-- JavaScript truthiness: `undefined`, `null`, `false`, `0` and `""` are
falsy, everything else truthy. -/
def jsTruthy (v : JVal) : Bool :=
  match v with
  | .undef => false
  | .null => false
  | .bool b => b
  | .num n => n ≠ 0
  | .str s => s ≠ ""
  | .obj _ => true

/-- The string content of a string value, `""` otherwise (applied only where
the sources have already established the value is a string). -/
def jStrD (v : JVal) : String :=
  match v with
  | .str s => s
  | _ => ""

/-- Replace the value of the first field named `k` (JS property assignment on
an existing key; absent keys are untouched, matching the single call site). -/
def jSetField (fs : JFields) (k : String) (v : JVal) : JFields :=
  match fs with
  | .nil => .nil
  | .cons k' v' rest => if k' = k then .cons k' v rest else .cons k' v' (jSetField rest k v)

/-- Path lookup through nested objects; `none` when a step is missing or
traverses a non-object. -/
def jGetPath (v : JVal) : List String → Option JVal
  | [] => some v
  | k :: rest =>
      match v with
      | .obj fs =>
          match jLookupOpt fs k with
          | some w => jGetPath w rest
          | none => none
      | _ => none

/-! ### Character-level string operations

The JavaScript string methods the sources use (`toLowerCase`, `includes`,
`trim`, the UUID shape check behind `z.string().uuid()`) are defined here
over character lists so that every definition evaluates inside the kernel.
ASCII coverage suffices for the fixed pattern lists being matched. -/

/-- ASCII lower-casing of one character (`String.prototype.toLowerCase`
restricted to ASCII, which covers every pattern in the deny-lists). -/
def charToLower (c : Char) : Char :=
  if 'A' ≤ c ∧ c ≤ 'Z' then Char.ofNat (c.toNat + 32) else c

/-- `s.toLowerCase()`. -/
def strToLower (s : String) : String := ⟨s.data.map charToLower⟩

/-- Does the character list start with the pattern? -/
def listStartsWith : List Char → List Char → Bool
  | [], _ => true
  | _ :: _, [] => false
  | p :: ps, c :: cs => p = c && listStartsWith ps cs

/-- Does the pattern occur as a contiguous run of the character list? -/
def listContainsSub (pat : List Char) : List Char → Bool
  | [] => listStartsWith pat []
  | c :: cs => listStartsWith pat (c :: cs) || listContainsSub pat cs

/-- `s.includes(pat)`. -/
def strContains (s pat : String) : Bool := listContainsSub pat.data s.data

/-- The whitespace characters relevant to `String.prototype.trim` in the
ASCII range. -/
def isJsSpace (c : Char) : Bool := c = ' ' || c = '\t' || c = '\n' || c = '\r'

/-- `s.trim()`. -/
def strTrim (s : String) : String :=
  ⟨((s.data.dropWhile isJsSpace).reverse.dropWhile isJsSpace).reverse⟩

/-- Hexadecimal digit, either case. -/
def isHexChar (c : Char) : Bool :=
  ('0' ≤ c && c ≤ '9') || ('a' ≤ c && c ≤ 'f') || ('A' ≤ c && c ≤ 'F')

/-- Split a character list on a separator character (`String.prototype.split`). -/
def splitOnChar (sep : Char) (l : List Char) : List (List Char) :=
  match l with
  | [] => [[]]
  | c :: cs =>
      let rest := splitOnChar sep cs
      if c = sep then [] :: rest
      else
        match rest with
        | [] => [[c]]
        | g :: gs => (c :: g) :: gs

/-- The 8-4-4-4-12 hexadecimal shape enforced by `z.string().uuid()`. -/
def isUuid (s : String) : Bool :=
  let groups := splitOnChar '-' s.data
  groups.map List.length = [8, 4, 4, 4, 12] && groups.all (fun g => g.all isHexChar)

/-! ### JSON serialization

`JSON.stringify` as applied by the sources to tool arguments and action
parameters: objects render their fields in insertion order, keys whose value
is `undefined` are omitted, and strings are quoted with the usual escapes. -/

/-- Escapes of one character inside a JSON string literal. -/
def escJsonChar (c : Char) : List Char :=
  if c = '"' then ['\\', '"']
  else if c = '\\' then ['\\', '\\']
  else if c = '\n' then ['\\', 'n']
  else if c = '\t' then ['\\', 't']
  else if c = '\r' then ['\\', 'r']
  else [c]

/-- JSON string-literal escaping. -/
def escJson (s : String) : String := ⟨s.data.foldr (fun c acc => escJsonChar c ++ acc) []⟩

mutual
/-- `JSON.stringify(v)` (on `undefined`, where real `JSON.stringify` yields no
string at all, the embedding yields `""`; the embedded call sites never pass
`undefined`). -/
def serializeJson : JVal → String
  | .undef => ""
  | .null => "null"
  | .bool b => if b then "true" else "false"
  | .num n => toString n
  | .str s => "\"" ++ escJson s ++ "\""
  | .obj fs => "\x7b" ++ String.intercalate "," (serializeEntries fs) ++ "\x7d"

/-- The serialized `"key":value` entries of an object, skipping
`undefined`-valued keys as `JSON.stringify` does. -/
def serializeEntries : JFields → List String
  | .nil => []
  | .cons k v rest =>
      match v with
      | .undef => serializeEntries rest
      | _ => ("\"" ++ escJson k ++ "\":" ++ serializeJson v) :: serializeEntries rest
end

/-! ## Packet enums and the bus (`src/core/bus.ts`) -/

/-- The six layer identifiers of `AceLayerID`. -/
inductive AceLayerID where
  | aspirational | globalStrategy | agentModel
  | executiveFunction | cognitiveControl | taskProsecution
deriving DecidableEq

/-- The wire strings of `AceLayerID`. -/
def layerStr : AceLayerID → String
  | .aspirational => "ASPIRATIONAL"
  | .globalStrategy => "GLOBAL_STRATEGY"
  | .agentModel => "AGENT_MODEL"
  | .executiveFunction => "EXECUTIVE_FUNCTION"
  | .cognitiveControl => "COGNITIVE_CONTROL"
  | .taskProsecution => "TASK_PROSECUTION"

/-- The members of the `AceLayerID` enum, as accepted by `z.nativeEnum`. -/
def layerStrings : List String :=
  ["ASPIRATIONAL", "GLOBAL_STRATEGY", "AGENT_MODEL",
   "EXECUTIVE_FUNCTION", "COGNITIVE_CONTROL", "TASK_PROSECUTION"]

/-- The `SouthboundType` enum. -/
inductive SouthboundType where
  | imperative | strategy | plan | instruction | control | veto
deriving DecidableEq

/-- The members of `SouthboundType`, as accepted by `z.nativeEnum`. -/
def southboundTypeStrings : List String :=
  ["IMPERATIVE", "STRATEGY", "PLAN", "INSTRUCTION", "CONTROL", "VETO"]

/-- The `NorthboundType` enum. -/
inductive NorthboundType where
  | observation | result | status | failure
  | criticalFailure | epiphany | frustrationSignal | capabilityError
deriving DecidableEq

/-- The members of `NorthboundType`, as accepted by `z.nativeEnum`. -/
def northboundTypeStrings : List String :=
  ["OBSERVATION", "RESULT", "STATUS", "FAILURE",
   "CRITICAL_FAILURE", "EPIPHANY", "FRUSTRATION_SIGNAL", "CAPABILITY_ERROR"]

/-- The required `id` field: a string passing the zod UUID check. -/
def checkUuidField (p : JVal) : Bool :=
  match jGet p "id" with
  | .str s => isUuid s
  | _ => false

/-- The required numeric `timestamp` field. -/
def checkTimestampField (p : JVal) : Bool :=
  match jGet p "timestamp" with
  | .num _ => true
  | _ => false

/-- The required string `traceId` field. -/
def checkTraceIdField (p : JVal) : Bool :=
  match jGet p "traceId" with
  | .str _ => true
  | _ => false

/-- A required field holding a member of an enum's wire strings. -/
def checkEnumField (p : JVal) (field : String) (members : List String) : Bool :=
  match jGet p field with
  | .str s => members.contains s
  | _ => false

/-- A required string field. -/
def checkStrField (p : JVal) (field : String) : Bool :=
  match jGet p field with
  | .str _ => true
  | _ => false

/-- The optional `parameters` field of `SouthboundSchema`
(`z.record(z.any()).optional()`): absent, or an object. -/
def checkParamsField (p : JVal) : Bool :=
  match jGet p "parameters" with
  | .undef => true
  | .obj _ => true
  | _ => false

/-- `SouthboundSchema.parse` of `src/core/bus.ts` as a boolean check: the
packet is an object whose required fields are well typed (`id` a UUID string,
`timestamp` a number, `traceId`/`content` strings, the layer and type fields
members of their enums, `parameters` absent or an object). -/
def validateSB (p : JVal) : Bool :=
  match p with
  | .obj _ =>
      checkUuidField p && checkTimestampField p && checkTraceIdField p &&
      checkEnumField p "sourceLayer" layerStrings &&
      checkEnumField p "targetLayer" layerStrings &&
      checkEnumField p "type" southboundTypeStrings &&
      checkStrField p "content" && checkParamsField p
  | _ => false

/-- `NorthboundSchema.parse` as a boolean check (`data` is `z.any().optional()`
and therefore unconstrained). -/
def validateNB (p : JVal) : Bool :=
  match p with
  | .obj _ =>
      checkUuidField p && checkTimestampField p && checkTraceIdField p &&
      checkEnumField p "sourceLayer" layerStrings &&
      checkEnumField p "targetLayer" layerStrings &&
      checkEnumField p "type" northboundTypeStrings &&
      checkStrField p "summary"
  | _ => false

/-- The errors a `publish` call can propagate: a zod schema failure from step
(1) (the spec's ValidationError), or a `SecurityError` thrown by the security
overlay middleware with its message. -/
inductive BusError where
  | validation : BusError
  | security : String → BusError
deriving DecidableEq

/-- `PROHIBITED_COMMANDS` of the `SecurityOverlay`. -/
def PROHIBITED_COMMANDS : List String :=
  ["rm -rf", "mkfs", "dd if=/dev/zero", ":()\x7b:|:&\x7d;:", "wget", "curl", "chmod 777"]

/-- The first deny-listed fragment occurring in southbound content, if any
(the overlay scans the list in order and throws on the first hit). -/
def firstProhibited (content : String) : Option String :=
  PROHIBITED_COMMANDS.find? (fun cmd => strContains content cmd)

/-- `SENSITIVE_KEYS` matching of `redactObject`: the lower-cased key contains
one of the sensitive markers. -/
def isSensitiveKey (k : String) : Bool :=
  ["apikey", "password", "token", "secret"].any (fun w => strContains (strToLower k) w)

mutual
/-- `SecurityOverlay.redactObject` on a value: inside an object, a
sensitive-named key's value is replaced by the redaction marker, a
non-sensitive key's object value is recursed into, and every other value is
left as is (the source mutates in place; the embedding returns the value the
mutated object graph then holds). -/
def redactValue (v : JVal) : JVal :=
  match v with
  | .obj fs => .obj (redactFields fs)
  | x => x

/-- `redactObject`'s `for key in obj` loop over the fields. -/
def redactFields (fs : JFields) : JFields :=
  match fs with
  | .nil => .nil
  | .cons k v rest =>
      .cons k (if isSensitiveKey k then .str "[REDACTED]" else redactValue v)
        (redactFields rest)
end

/-- `monitorNorthbound`'s guard `packet.data && typeof packet.data === 'object'`:
truthy and of object type, i.e. an object (`null` is falsy). -/
def isRedactableData (v : JVal) : Bool :=
  match v with
  | .obj _ => true
  | _ => false

/-- The packet value after `monitorNorthbound` ran: its `data` field redacted
when it is an object, untouched otherwise. -/
def redactPacket (p : JVal) : JVal :=
  match p with
  | .obj fs =>
      if isRedactableData (jLookup fs "data")
      then .obj (jSetField fs "data" (redactValue (jLookup fs "data")))
      else p
  | _ => p

/-- The `seenPacketIds` set of the `SecurityOverlay`, in insertion order. -/
abbrev SecState := List String

/-- `MAX_TRACKED_IDS`. -/
def MAX_TRACKED_IDS : Nat := 1000

/-- The outcome of one `publish` call: the overlay state after the call, the
result (`ok`, or the propagated error), the packets handed to the audit
logger, and the `(targetLayer, packet)` emissions delivered to subscribers.
An error result carries empty `logged`/`emitted` lists by the same
control flow as the source: the exception aborts `publish` before those
steps. -/
structure PublishOut where
  state : SecState
  result : Except BusError Unit
  logged : List JVal
  emitted : List (String × JVal)
deriving DecidableEq

/-- `BusManager.publishSouthbound`: (1) `SouthboundSchema.parse`, throwing on
a malformed packet; (2) the security overlay middleware — deny-list scan of
`content`, then the duplicate-id check with bounded LRU-style eviction of the
oldest tenth; (3) best-effort audit log; (4) synchronous emit keyed by
`targetLayer`. -/
def publishSouthbound (st : SecState) (p : JVal) : PublishOut :=
  if validateSB p = false then ⟨st, .error .validation, [], []⟩
  else
    let content := jStrD (jGet p "content")
    match firstProhibited content with
    | some cmd => ⟨st, .error (.security ("Prohibited command detected: " ++ cmd)), [], []⟩
    | none =>
        let pid := jStrD (jGet p "id")
        if st.contains pid then
          ⟨st, .error (.security ("Circular dependency or duplicate packet detected: " ++ pid)), [], []⟩
        else
          let st1 := st ++ [pid]
          let st2 := if st1.length > MAX_TRACKED_IDS then st1.drop (MAX_TRACKED_IDS / 10) else st1
          ⟨st2, .ok (), [p], [(jStrD (jGet p "targetLayer"), p)]⟩

/-- `BusManager.publishNorthbound`: (1) `NorthboundSchema.parse`; (2) the
security overlay redacts the `data` payload in place; (3) the audit log and
(4) the emit both see the redacted packet. The overlay keeps no state on this
channel. -/
def publishNorthbound (p : JVal) : Except BusError Unit × List JVal × List (String × JVal) :=
  if validateNB p = false then (.error .validation, [], [])
  else
    let p' := redactPacket p
    (.ok (), [p'], [(jStrD (jGet p' "targetLayer"), p')])

/-- Reference-semantics view of `publishNorthbound` for the in-place-mutation
claim: the caller's `data` object lives in a one-cell-per-reference store and
the packet holds the reference `ref`. `monitorNorthbound` overwrites that very
cell; the emit hands subscribers the same reference, never a copy. Returns the
store after the call, the result, and the `(targetLayer, dataRef)` emissions. -/
def publishNorthboundStore (store : List JVal) (meta : JVal) (ref : Nat) :
    List JVal × Except BusError Unit × List (String × Nat) :=
  let d := (store.get? ref).getD .undef
  let full := match meta with
    | .obj fs => JVal.obj (jSetField fs "data" d)
    | m => m
  if validateNB full = false then (store, .error .validation, [])
  else
    let store' := if isRedactableData d then store.set ref (redactValue d) else store
    (store', .ok (), [(jStrD (jGet full "targetLayer"), ref)])

/-! ## Typed packets for the layer handlers

The layers receive packets that already passed schema validation, so their
handlers are embedded over typed records. -/

/-- A validated `SouthboundPacket`. -/
structure SouthboundPacket where
  id : String
  timestamp : Int
  traceId : String
  sessionId : Option String := none
  sourceLayer : AceLayerID
  targetLayer : AceLayerID
  type : SouthboundType
  content : String
  parameters : JVal := .undef
deriving DecidableEq

/-- A validated `NorthboundPacket`. -/
structure NorthboundPacket where
  id : String
  timestamp : Int
  traceId : String
  sessionId : Option String := none
  sourceLayer : AceLayerID
  targetLayer : AceLayerID
  type : NorthboundType
  summary : String
  data : JVal := .undef
deriving DecidableEq

/-! ## Cognitive Control layer (`CognitiveControlLayer`)

The focus-state machine with its consecutive-failure counter.  Handlers are
state-transition functions; the packets a handler publishes are returned in
order. `freshId`/`now` stand for `crypto.randomUUID()`/`Date.now()`. -/

/-- The `FocusState` enum of Cognitive Control. -/
inductive FocusState where
  | idle | executing | blocked | frustrated
deriving DecidableEq

/-- The mutable state of the `CognitiveControlLayer` instance. -/
structure CCState where
  state : FocusState := .idle
  failureCount : Nat := 0
deriving DecidableEq

/-- `FRUSTRATION_THRESHOLD`. -/
def FRUSTRATION_THRESHOLD : Nat := 3

/-- `CognitiveControlLayer.handleSouthbound`: drop when the layer lock is
busy or the content is blank; a targeted INSTRUCTION zeroes the failure
counter, enters EXECUTING, and forwards the packet to Task Prosecution as
CONTROL; a CONTROL packet whose content is `"BLOCKED"` enters BLOCKED. -/
def ccHandleSouthbound (lockAcquired : Bool) (p : SouthboundPacket) (s : CCState) :
    CCState × List SouthboundPacket :=
  if !lockAcquired then (s, [])
  else if strTrim p.content = "" then (s, [])
  else if p.targetLayer = .cognitiveControl ∧ p.type = .instruction then
    (⟨.executing, 0⟩,
     [{ p with type := .control, sourceLayer := .cognitiveControl,
               targetLayer := .taskProsecution }])
  else if p.type = .control ∧ p.content = "BLOCKED" then
    ({ s with state := .blocked }, [])
  else (s, [])

/-- The FRUSTRATION_SIGNAL packet emitted when the threshold is reached,
built from the failing packet as in the source. -/
def frustrationSignalPacket (freshId : String) (now : Int) (p : NorthboundPacket)
    (count : Nat) : NorthboundPacket :=
  { id := freshId, timestamp := now, traceId := p.traceId,
    sourceLayer := .cognitiveControl, targetLayer := .globalStrategy,
    type := .frustrationSignal,
    summary := "Frustration threshold exceeded for task: " ++ p.summary ++ " ",
    data := .obj (.cons "failureCount" (.num count) .nil) }

/-- `CognitiveControlLayer.handleNorthbound`: blank summaries are dropped; a
RESULT from Task Prosecution while EXECUTING or BLOCKED zeroes the counter and
returns to IDLE; a FAILURE from Task Prosecution increments the counter and,
at or above the threshold, enters FRUSTRATED and publishes one
FRUSTRATION_SIGNAL (the counter is not reset afterwards). -/
def ccHandleNorthbound (freshId : String) (now : Int) (p : NorthboundPacket)
    (s : CCState) : CCState × List NorthboundPacket :=
  if strTrim p.summary = "" then (s, [])
  else
    let s1 :=
      if p.sourceLayer = .taskProsecution ∧ p.type = .result ∧
         (s.state = .executing ∨ s.state = .blocked)
      then (⟨.idle, 0⟩ : CCState) else s
    if p.sourceLayer = .taskProsecution ∧ p.type = .failure then
      let c := s1.failureCount + 1
      if FRUSTRATION_THRESHOLD ≤ c then
        (⟨.frustrated, c⟩, [frustrationSignalPacket freshId now p c])
      else ({ s1 with failureCount := c }, [])
    else (s1, [])

/-- `CognitiveControlLayer.resetState`: back to IDLE with a zeroed counter. -/
def ccResetState (_s : CCState) : CCState := ⟨.idle, 0⟩

/-- A run of `handleNorthbound` over a sequence of delivered packets, each
with its fresh id and clock reading; returns the final state and every packet
published along the way. -/
def ccRunNorthbound : List (NorthboundPacket × String × Int) → CCState →
    CCState × List NorthboundPacket
  | [], s => (s, [])
  | (p, fid, now) :: rest, s =>
      let (s1, out1) := ccHandleNorthbound fid now p s
      let (s2, out2) := ccRunNorthbound rest s1
      (s2, out1 ++ out2)

/-! ## Executive Function layer (`ExecutiveFunctionLayer`)

DAG plan execution.  The LLM-produced task breakdown is a parameter; the
embedding follows one plan from installation (`handleSouthbound` on a PLAN
packet, which stores every task as `pending` and runs `executeNextTasks`)
through the completion/failure notifications `handleNorthbound` routes to
`handleTaskCompletion`/`handleTaskFailure`. -/

/-- `DAGTask.status`. -/
inductive TaskStatus where
  | pending | executing | completed | failed
deriving DecidableEq

/-- A `DAGTask`. -/
structure DAGTask where
  id : String
  description : String := ""
  tool : String := ""
  dependencies : List String
  status : TaskStatus := .pending
deriving DecidableEq

/-- The observable actions of the Executive Function layer on one plan:
an INSTRUCTION dispatched for a task, a task status set to `completed` or
`failed`, and the northbound FAILURE notification on task failure. -/
inductive EFEvent where
  | instr : DAGTask → EFEvent
  | completedSet : String → EFEvent
  | failedSet : String → EFEvent
  | nbFailure : String → EFEvent
deriving DecidableEq

/-- Is a dependency id completed within the plan?  An id that resolves to no
task in the plan counts as not completed (so the task is never ready). -/
def depDone (plan : List DAGTask) (d : String) : Bool :=
  match plan.find? (fun u => u.id = d) with
  | some u => u.status = .completed
  | none => false

/-- Ready-set membership of `executeNextTasks`: still `pending`, and every
dependency `completed`. -/
def isReady (plan : List DAGTask) (t : DAGTask) : Bool :=
  t.status = .pending && t.dependencies.all (depDone plan)

/-- The mark-executing pass of `executeNextTasks`: every ready task (against
the entry plan, which the loop computed up front) is set to `executing`. -/
def markExecuting (plan : List DAGTask) : List DAGTask :=
  plan.map (fun t => if isReady plan t then { t with status := .executing } else t)

/-- `ExecutiveFunctionLayer.executeNextTasks`: dispatch an INSTRUCTION for
each ready task, marking it `executing`. -/
def executeNextTasks (plan : List DAGTask) : List DAGTask × List EFEvent :=
  (markExecuting plan, (plan.filter (isReady plan)).map (fun t => .instr t))

/-- Update the status of the first task with the given id (the source finds
the task object and assigns its `status` field). -/
def setStatusFirst (plan : List DAGTask) (taskId : String) (st : TaskStatus) :
    List DAGTask :=
  match plan with
  | [] => []
  | t :: rest =>
      if t.id = taskId then { t with status := st } :: rest
      else t :: setStatusFirst rest taskId st

/-- `ExecutiveFunctionLayer.handleTaskCompletion`: if the task exists, set it
`completed` and recompute the ready set. -/
def handleTaskCompletion (plan : List DAGTask) (taskId : String) :
    List DAGTask × List EFEvent :=
  if (plan.find? (fun t => t.id = taskId)).isSome then
    let p1 := setStatusFirst plan taskId .completed
    let (p2, evs) := executeNextTasks p1
    (p2, .completedSet taskId :: evs)
  else (plan, [])

/-- `ExecutiveFunctionLayer.handleTaskFailure`: if the task exists, set it
`failed` and publish a northbound FAILURE (no new dispatch happens). -/
def handleTaskFailure (plan : List DAGTask) (taskId : String) :
    List DAGTask × List EFEvent :=
  if (plan.find? (fun t => t.id = taskId)).isSome then
    (setStatusFirst plan taskId .failed, [.failedSet taskId, .nbFailure taskId])
  else (plan, [])

/-- A northbound notification `handleNorthbound` routes to the plan: a RESULT
(completion) or FAILURE for a task id. -/
inductive EFOp where
  | complete : String → EFOp
  | fail : String → EFOp
deriving DecidableEq

/-- Apply one routed notification. -/
def efApplyOp (plan : List DAGTask) : EFOp → List DAGTask × List EFEvent
  | .complete taskId => handleTaskCompletion plan taskId
  | .fail taskId => handleTaskFailure plan taskId

/-- Process a sequence of routed notifications, concatenating events in
order. -/
def efRunOps (plan : List DAGTask) : List EFOp → List DAGTask × List EFEvent
  | [] => (plan, [])
  | op :: ops =>
      let (p1, e1) := efApplyOp plan op
      let (p2, e2) := efRunOps p1 ops
      (p2, e1 ++ e2)

/-- The life of one plan: `handleSouthbound` on the PLAN packet stores every
task with status `pending` and runs `executeNextTasks`; the completion and
failure notifications then arrive in sequence. -/
def efRunPlan (tasks : List DAGTask) (ops : List EFOp) :
    List DAGTask × List EFEvent :=
  let p0 := tasks.map (fun t => { t with status := TaskStatus.pending })
  let (p1, e1) := executeNextTasks p0
  let (p2, e2) := efRunOps p1 ops
  (p2, e1 ++ e2)

/-! ## Reflection Trigger Engine (`ReflectionTriggerEngine`)

The stateful detector suite sharing one cooldown map keyed by
`type:sessionId-or-global`.  Millisecond clock readings are `Int`, scores and
thresholds `ℚ`.  The `context` payload of a trigger is pure data never read
by any embedded code path and is not modelled. -/

/-- The `ReflectionTriggerType` enum. -/
inductive ReflectionTriggerType where
  | predictionError | performanceGap | loopDetection | stagnation
  | resourceExhaustion | completion | blockage | accumulation
  | feedback | curiosity | safetyViolation | alignmentViolation | periodic
deriving DecidableEq

/-- The wire strings of `ReflectionTriggerType` (used in the cooldown key). -/
def triggerTypeStr : ReflectionTriggerType → String
  | .predictionError => "PREDICTION_ERROR"
  | .performanceGap => "PERFORMANCE_GAP"
  | .loopDetection => "LOOP_DETECTION"
  | .stagnation => "STAGNATION"
  | .resourceExhaustion => "RESOURCE_EXHAUSTION"
  | .completion => "COMPLETION"
  | .blockage => "BLOCKAGE"
  | .accumulation => "ACCUMULATION"
  | .feedback => "FEEDBACK"
  | .curiosity => "CURIOSITY"
  | .safetyViolation => "SAFETY_VIOLATION"
  | .alignmentViolation => "ALIGNMENT_VIOLATION"
  | .periodic => "PERIODIC"

/-- The `ReflectionLevel` enum. -/
inductive ReflectionLevel where
  | local_ | strategic | aspirational
deriving DecidableEq

/-- A `ReflectionTrigger` (without its `context` payload, which no embedded
control flow inspects). -/
structure ReflectionTrigger where
  type : ReflectionTriggerType
  level : ReflectionLevel
  sessionId : Option String := none
  traceId : String
  timestamp : Int
deriving DecidableEq

/-- `ReflectionTriggerConfig` with the constructor's defaults already merged
in (the constructor spreads the defaults under the caller's overrides, so
every field is populated). -/
structure RTConfig where
  predictionErrorThreshold : ℚ := 3/10
  loopDetectionWindow : Nat := 5
  loopDetectionThreshold : ℚ := 4/5
  stagnationTimeWindow : Int := 5 * 60 * 1000
  stagnationProgressThreshold : ℚ := 1/100
  maxTokens : ℚ := 100000
  maxSteps : ℚ := 100
  maxTime : ℚ := 30 * 60 * 1000
  cooldownMs : Int := 30 * 1000
  contextWindowThreshold : ℚ := 4/5

/-- One recorded action of the per-session history (`type` is the tool name,
`params` the arguments, as pushed by Task Prosecution). -/
structure RTAction where
  type : String
  params : JVal
  traceId : String
deriving DecidableEq

/-- JS `Map.set`: overwrite in place, or append a new key. -/
def mapSet {α : Type} : List (String × α) → String → α → List (String × α)
  | [], k, v => [(k, v)]
  | (k', v') :: rest, k, v =>
      if k' = k then (k, v) :: rest else (k', v') :: mapSet rest k v

/-- JS `Map.get`. -/
def mapGet? {α : Type} : List (String × α) → String → Option α
  | [], _ => none
  | (k', v') :: rest, k => if k' = k then some v' else mapGet? rest k

/-- The mutable maps of the engine: `cooldownMap`, `actionHistory`,
`progressHistory`. -/
structure RTEngineState where
  cooldownMap : List (String × Int) := []
  actionHistory : List (String × List RTAction) := []
  progressHistory : List (String × List (Int × ℚ)) := []
deriving DecidableEq

/-- The cooldown-map key `` `${trigger.type}:${trigger.sessionId || 'global'}` ``
(a falsy — absent or empty — session id reads `'global'`). -/
def cooldownKey (ty : ReflectionTriggerType) (sid : Option String) : String :=
  triggerTypeStr ty ++ ":" ++
    (match sid with
     | some s => if s = "" then "global" else s
     | none => "global")

/-- `ReflectionTriggerEngine.checkCooldown`: inside an active window the call
reports `false` and changes nothing; otherwise it opens a new window of
`cooldownMs` from `now` and reports `true`. -/
def checkCooldown (cfg : RTConfig) (now : Int) (tr : ReflectionTrigger)
    (st : RTEngineState) : Bool × RTEngineState :=
  if now < (mapGet? st.cooldownMap (cooldownKey tr.type tr.sessionId)).getD 0
  then (false, st)
  else
    (true,
      { st with
          cooldownMap := mapSet st.cooldownMap (cooldownKey tr.type tr.sessionId) (now + cfg.cooldownMs) })

/-- The `if (await this.checkCooldown(trigger)) return trigger` pattern shared
by the cooldown-gated detectors: deliver the candidate trigger when its
cooldown check passes, nothing when it is suppressed. -/
def gateCooldown (cfg : RTConfig) (now : Int) (tr : ReflectionTrigger)
    (st : RTEngineState) : Option ReflectionTrigger × RTEngineState :=
  if (checkCooldown cfg now tr st).1
  then (some tr, (checkCooldown cfg now tr st).2)
  else (none, (checkCooldown cfg now tr st).2)

/-! ### State comparison (`compareStates`) -/

/-- `Set` union of the two key lists, in first-insertion order. -/
def dedupKeys (seen : List String) : List String → List String
  | [] => []
  | x :: xs =>
      if seen.contains x then dedupKeys seen xs else x :: dedupKeys (x :: seen) xs

/-- `new Set([...Object.keys(exp), ...Object.keys(act)])` of `compareStates`. -/
def keysUnion (fs gs : JFields) : List String :=
  dedupKeys [] (jKeys fs ++ jKeys gs)

theorem jLookup_sizeOf_le : ∀ (fs : JFields) (k : String),
    sizeOf (jLookup fs k) ≤ sizeOf fs
  | .nil, _ => by simp [jLookup]
  | .cons k' v rest, k => by
    have ih := jLookup_sizeOf_le rest k
    simp only [jLookup]
    split
    · simp; omega
    · simp; omega

mutual
/-- The recursive `compare` closure of `compareStates`, returning the list of
per-leaf differences in push order: a `typeof` mismatch is one leaf of
difference `1`; two non-null objects recurse over the union of their keys;
anything else is one leaf of difference `0` or `1` by strict equality.  The
source's `totalDifference` and `fieldCount` are the sum and length of this
list, incremented exactly when a leaf is pushed. -/
def compareAux (e a : JVal) : List ℚ :=
  if jsTypeof e ≠ jsTypeof a then [1]
  else
    match e, a with
    | .obj fs, .obj gs => compareFields fs gs (keysUnion fs gs)
    | e', a' => [if e' = a' then 0 else 1]
termination_by (sizeOf e + sizeOf a, 0)
decreasing_by
  apply Prod.Lex.left
  simp
  omega

/-- The `for (const key of keys)` loop of the `compare` closure. -/
def compareFields (fs gs : JFields) (ks : List String) : List ℚ :=
  match ks with
  | [] => []
  | k :: rest =>
      compareAux (jLookup fs k) (jLookup gs k) ++ compareFields fs gs rest
termination_by (sizeOf fs + sizeOf gs, ks.length + 1)
decreasing_by
  · have h1 := jLookup_sizeOf_le fs k
    have h2 := jLookup_sizeOf_le gs k
    rcases Nat.lt_or_ge (sizeOf (jLookup fs k) + sizeOf (jLookup gs k))
      (sizeOf fs + sizeOf gs) with h | h
    · exact Prod.Lex.left _ _ h
    · have heq : sizeOf (jLookup fs k) + sizeOf (jLookup gs k) = sizeOf fs + sizeOf gs := by
        omega
      rw [heq]
      apply Prod.Lex.right
      omega
  · apply Prod.Lex.right
    simp only [List.length_cons]
    omega
end

/-- The `difference` field of `compareStates`: `totalDifference / fieldCount`,
or `0` when no leaf was compared. -/
def compareStatesDifference (e a : JVal) : ℚ :=
  let fields := compareAux e a
  if 0 < fields.length then fields.sum / fields.length else 0

/-- `determineReflectionLevel`: LOCAL below `0.5`, STRATEGIC below `0.8`,
ASPIRATIONAL otherwise. -/
def determineReflectionLevel (difference : ℚ) : ReflectionLevel :=
  if difference < 1/2 then .local_
  else if difference < 4/5 then .strategic
  else .aspirational

/-! ### The detectors -/

/-- Detector 1, `checkPredictionError`: fires when the diff score exceeds the
threshold, at the level scaling with the score, subject to cooldown. -/
def checkPredictionError (cfg : RTConfig) (now : Int) (traceId : String)
    (expectedState actualState : JVal) (sessionId : Option String)
    (st : RTEngineState) : Option ReflectionTrigger × RTEngineState :=
  if cfg.predictionErrorThreshold <
      compareStatesDifference expectedState actualState then
    gateCooldown cfg now
      { type := .predictionError,
        level := determineReflectionLevel
          (compareStatesDifference expectedState actualState),
        sessionId := sessionId, traceId := traceId, timestamp := now } st
  else (none, st)

/-- `calculateActionSimilarity`: the count of consecutive pairs with equal
type and identically serialized params. -/
def similarPairs : List RTAction → Nat
  | a :: b :: rest =>
      (if a.type = b.type ∧ serializeJson a.params = serializeJson b.params
       then 1 else 0) + similarPairs (b :: rest)
  | _ => 0

/-- `calculateActionSimilarity`: the fraction of similar consecutive pairs,
`0` for fewer than two actions. -/
def calculateActionSimilarity (actions : List RTAction) : ℚ :=
  if actions.length < 2 then 0
  else (similarPairs actions : ℚ) / ((actions.length : ℚ) - 1)

/-- `history.slice(-n)`. -/
def takeLast {α : Type} (n : Nat) (l : List α) : List α := l.drop (l.length - n)

/-- The STRATEGIC trigger `checkLoopDetection` builds (its `traceId` falls
back to a fresh UUID when the action carries a falsy one). -/
def loopTrigger (sessionId : String) (currentAction : RTAction) (freshId : String)
    (now : Int) : ReflectionTrigger :=
  { type := .loopDetection, level := .strategic, sessionId := some sessionId,
    traceId := if currentAction.traceId = "" then freshId else currentAction.traceId,
    timestamp := now }

/-- The push-then-trim (`history.push`; `shift` beyond twice the window) the
non-firing paths of `checkLoopDetection` store back. -/
def loopTrimmed (cfg : RTConfig) (history : List RTAction)
    (currentAction : RTAction) : List RTAction :=
  if cfg.loopDetectionWindow * 2 < (history ++ [currentAction]).length
  then (history ++ [currentAction]).drop 1
  else history ++ [currentAction]

/-- Detector 2, `checkLoopDetection`: below the window size the action is
recorded and nothing fires; otherwise, if the similarity of the last
window-many actions exceeds the threshold and the cooldown passes, the
session's history is cleared and a STRATEGIC trigger returned; on any other
path the action is appended and the history trimmed to twice the window. -/
def checkLoopDetection (cfg : RTConfig) (now : Int) (sessionId : String)
    (currentAction : RTAction) (freshId : String) (st : RTEngineState) :
    Option ReflectionTrigger × RTEngineState :=
  let history := (mapGet? st.actionHistory sessionId).getD []
  if history.length < cfg.loopDetectionWindow then
    (none, { st with actionHistory := mapSet st.actionHistory sessionId (history ++ [currentAction]) })
  else
    let recentActions := takeLast cfg.loopDetectionWindow history
    let similarity := calculateActionSimilarity recentActions
    if cfg.loopDetectionThreshold < similarity then
      if (checkCooldown cfg now (loopTrigger sessionId currentAction freshId now) st).1 then
        (some (loopTrigger sessionId currentAction freshId now),
          { (checkCooldown cfg now (loopTrigger sessionId currentAction freshId now) st).2 with
              actionHistory := mapSet (checkCooldown cfg now (loopTrigger sessionId currentAction freshId now) st).2.actionHistory sessionId [] })
      else
        (none,
          { (checkCooldown cfg now (loopTrigger sessionId currentAction freshId now) st).2 with
              actionHistory := mapSet (checkCooldown cfg now (loopTrigger sessionId currentAction freshId now) st).2.actionHistory sessionId (loopTrimmed cfg history currentAction) })
    else
      (none,
        { st with
            actionHistory := mapSet st.actionHistory sessionId (loopTrimmed cfg history currentAction) })

/-- Detector 3, `checkStagnation`: record the progress reading, keep the
trailing hour, and fire STRATEGIC (subject to cooldown) when the absolute
progress delta between the oldest and newest retained readings stays below
the threshold over more than the stagnation window. -/
def checkStagnation (cfg : RTConfig) (now : Int) (sessionId : String)
    (goalProgress : ℚ) (freshId : String) (st : RTEngineState) :
    Option ReflectionTrigger × RTEngineState :=
  let history := (mapGet? st.progressHistory sessionId).getD []
  let h1 := history ++ [(now, goalProgress)]
  let cutoffTime := now - 60 * 60 * 1000
  let recentHistory := h1.filter (fun e => cutoffTime < e.1)
  let st0 := { st with progressHistory := mapSet st.progressHistory sessionId recentHistory }
  if recentHistory.length < 2 then (none, st0)
  else
    let oldest := recentHistory.headD (0, 0)
    let newest := recentHistory.getLastD (0, 0)
    let progressDelta := |newest.2 - oldest.2|
    let timeDelta := newest.1 - oldest.1
    if cfg.stagnationTimeWindow < timeDelta ∧
       progressDelta < cfg.stagnationProgressThreshold then
      gateCooldown cfg now
        { type := .stagnation, level := .strategic, sessionId := some sessionId,
          traceId := freshId, timestamp := now } st0
    else (none, st0)

/-- Detector 4, `checkCompletion`: fires LOCAL when the result fails the
completion validation (`result` truthy with `status === 'success'` or
`success === true`); no cooldown is consulted. -/
def checkCompletion (now : Int) (traceId : String) (_subgoalId : String)
    (result : JVal) (sessionId : Option String) : Option ReflectionTrigger :=
  let isValid := jsTruthy result &&
    (jGet result "status" = .str "success" || jGet result "success" = .bool true)
  if isValid then none
  else
    some { type := .completion, level := .local_, sessionId := sessionId,
           traceId := traceId, timestamp := now }

/-- Detector 5, `checkAccumulation`: fires STRATEGIC (subject to cooldown)
when context-window occupancy exceeds the threshold. -/
def checkAccumulation (cfg : RTConfig) (now : Int) (sessionId : String)
    (contextWindowUsage : ℚ) (freshId : String) (st : RTEngineState) :
    Option ReflectionTrigger × RTEngineState :=
  if cfg.contextWindowThreshold < contextWindowUsage then
    gateCooldown cfg now
      { type := .accumulation, level := .strategic, sessionId := some sessionId,
        traceId := freshId, timestamp := now } st
  else (none, st)

/-- The polarity of external feedback. -/
inductive FeedbackType where
  | positive | negative
deriving DecidableEq

/-- Detector 6, `checkFeedback`: negative feedback fires STRATEGIC
immediately — the source explicitly skips the cooldown and touches no
engine state. -/
def checkFeedback (now : Int) (traceId : String) (feedbackType : FeedbackType)
    (sessionId : Option String) : Option ReflectionTrigger :=
  if feedbackType = .negative then
    some { type := .feedback, level := .strategic, sessionId := sessionId,
           traceId := traceId, timestamp := now }
  else none

/-- `CURIOSITY_THRESHOLD`. -/
def CURIOSITY_THRESHOLD : ℚ := 7/10

/-- Detector 7, `checkCuriosity`: fires STRATEGIC when the discovery's value
exceeds the threshold; the source returns the trigger directly, without
consulting `checkCooldown` and without touching engine state. -/
def checkCuriosity (now : Int) (traceId : String) (discoveryValue : ℚ)
    (sessionId : Option String) : Option ReflectionTrigger :=
  if CURIOSITY_THRESHOLD < discoveryValue then
    some { type := .curiosity, level := .strategic, sessionId := sessionId,
           traceId := traceId, timestamp := now }
  else none

/-- The consumption metrics fed to `checkResourceExhaustion`. -/
structure RTMetrics where
  tokens : ℚ
  steps : ℚ
  time : ℚ

/-- The `for (const trigger of triggers)` loop of `checkResourceExhaustion`:
return the first candidate whose cooldown passes (a failed check leaves the
state unchanged). -/
def firstPastCooldown (cfg : RTConfig) (now : Int) (st : RTEngineState) :
    List ReflectionTrigger → Option ReflectionTrigger × RTEngineState
  | [] => (none, st)
  | t :: ts =>
      if (checkCooldown cfg now t st).1 then (some t, (checkCooldown cfg now t st).2)
      else firstPastCooldown cfg now (checkCooldown cfg now t st).2 ts

/-- The STRATEGIC candidate triggers of `checkResourceExhaustion`. -/
def resourceTrigger (sessionId : String) (fid : String) (now : Int) :
    ReflectionTrigger :=
  { type := .resourceExhaustion, level := .strategic, sessionId := some sessionId,
    traceId := fid, timestamp := now }

/-- Detector 8, `checkResourceExhaustion`: a STRATEGIC candidate per resource
above 90% of its ceiling, of which the first passing cooldown is returned. -/
def checkResourceExhaustion (cfg : RTConfig) (now : Int) (sessionId : String)
    (metrics : RTMetrics) (freshId1 freshId2 freshId3 : String)
    (st : RTEngineState) : Option ReflectionTrigger × RTEngineState :=
  firstPastCooldown cfg now st
    ((if cfg.maxTokens * (9/10) < metrics.tokens
      then [resourceTrigger sessionId freshId1 now] else []) ++
     (if cfg.maxSteps * (9/10) < metrics.steps
      then [resourceTrigger sessionId freshId2 now] else []) ++
     (if cfg.maxTime * (9/10) < metrics.time
      then [resourceTrigger sessionId freshId3 now] else []))

/-! ## Task Prosecution layer (`TaskProsecutionLayer`)

Tool resolution, the sandbox check, execution and reporting.  A tool's
`execute` either returns a result value or throws (modelled as `Except`,
the error carrying the exception message); the handler catches the throw and
reports FAILURE, so the handler itself is a total function — the embedding of
"never throwing from the handler". -/

/-- A registered `AceTool`: name, the zod schema check on arguments, and the
executor. -/
structure AceTool where
  name : String
  schemaOk : JVal → Bool
  execute : JVal → Except String JVal

/-- What `handleSouthbound` observably does: invoke a registered tool's
`execute`, or publish a northbound packet. -/
inductive TPEvent where
  | executed : String → JVal → TPEvent
  | publishNB : NorthboundPacket → TPEvent

/-- The tool-name `BLACKLIST` of `sandboxCheck`. -/
def TOOL_BLACKLIST : List String := ["eval", "exec", "system"]

/-- The `SUSPICIOUS_PATTERNS` of `sandboxCheck`. -/
def SUSPICIOUS_PATTERNS : List String :=
  ["rm -rf", "sudo", "mkfs", "dd if=/dev/zero", ":()\x7b:|:&\x7d;:",
   "chmod 777", "format", "del /f"]

/-- Does the lower-cased serialization of the arguments contain one of the
suspicious patterns (each itself lower-cased, as in the source)? -/
def argsSuspicious (args : JVal) : Bool :=
  SUSPICIOUS_PATTERNS.any (fun pat =>
    strContains (strToLower (serializeJson args)) (strToLower pat))

/-- `packet.parameters?.args || \x7b\x7d`: the `args` value when truthy, the
empty object otherwise. -/
def tpArgsOf (params : JVal) : JVal :=
  if jsTruthy (jGet params "args") then jGet params "args" else .obj .nil

/-- `tools.get(toolName)` for a tool-name value of arbitrary runtime type: a
`Map` keyed by strings matches only an equal string. -/
def findTool (tools : List AceTool) (toolNameV : JVal) : Option AceTool :=
  tools.find? (fun t => toolNameV = .str t.name)

/-- `TaskProsecutionLayer.sandboxCheck`: the tool must be registered, its name
not blacklisted, the arguments must pass the tool's schema, and the serialized
arguments must match no suspicious pattern. -/
def sandboxCheck (tools : List AceTool) (toolNameV : JVal) (args : JVal) : Bool :=
  match findTool tools toolNameV with
  | none => false
  | some tool =>
      if TOOL_BLACKLIST.contains (jStrD toolNameV) then false
      else if !tool.schemaOk args then false
      else if argsSuspicious args then false
      else true

/-- `TaskProsecutionLayer.executeTool`, with the invocation of a registered
tool's `execute` recorded as an event; an unregistered name (unreachable
after `sandboxCheck`) runs the mock and invokes nothing. -/
def executeToolE (tools : List AceTool) (toolNameV : JVal) (args : JVal) :
    Except String JVal × List TPEvent :=
  match findTool tools toolNameV with
  | some tool => (tool.execute args, [.executed tool.name args])
  | none =>
      (.ok (.obj (.cons "status" (.str "success")
        (.cons "output" (.str ("Executed " ++ jStrD toolNameV ++ " (Mock)")) .nil))), [])

/-- `TaskProsecutionLayer.reportFailure`'s packet. -/
def tpFailurePacket (p : SouthboundPacket) (freshId : String) (now : Int)
    (reason : String) : NorthboundPacket :=
  { id := freshId, timestamp := now, traceId := p.traceId,
    sessionId := p.sessionId, sourceLayer := .taskProsecution,
    targetLayer := .cognitiveControl, type := .failure, summary := reason,
    data := .obj (.cons "error" (.str reason) .nil) }

/-- `generateExpectedState`. -/
def generateExpectedState (toolNameV : JVal) (now : Int) : JVal :=
  .obj (.cons "status" (.str "success")
    (.cons "tool" toolNameV (.cons "timestamp" (.num now) .nil)))

/-- `extractActualState` (`result.status || 'unknown'`, `result.data || result`). -/
def extractActualState (result : JVal) (now : Int) : JVal :=
  .obj (.cons "status"
          (if jsTruthy (jGet result "status") then jGet result "status" else .str "unknown")
        (.cons "data"
          (if jsTruthy (jGet result "data") then jGet result "data" else result)
          (.cons "timestamp" (.num now) .nil)))

/-- `handleReflectionTrigger`: LOCAL stays put; STRATEGIC publishes a FAILURE
to Global Strategy; ASPIRATIONAL publishes a CRITICAL_FAILURE to
Aspirational. -/
def handleReflectionTrigger (tr : ReflectionTrigger) (p : SouthboundPacket)
    (freshId : String) (now : Int) : List TPEvent :=
  let strategicPacket : NorthboundPacket :=
    { id := freshId, timestamp := now, traceId := p.traceId,
      sessionId := p.sessionId, sourceLayer := .taskProsecution,
      targetLayer := .globalStrategy, type := .failure,
      summary := "Reflection triggered: " ++ triggerTypeStr tr.type,
      data := .undef }
  let aspirationalPacket : NorthboundPacket :=
    { id := freshId, timestamp := now, traceId := p.traceId,
      sessionId := p.sessionId, sourceLayer := .taskProsecution,
      targetLayer := .aspirational, type := .criticalFailure,
      summary := "Critical reflection triggered: " ++ triggerTypeStr tr.type,
      data := .undef }
  match tr.level with
  | .local_ => []
  | .strategic => [.publishNB strategicPacket]
  | .aspirational => [.publishNB aspirationalPacket]

/-- The success RESULT packet of step 7. -/
def tpResultPacket (p : SouthboundPacket) (freshId : String) (now : Int)
    (toolName : String) (result expectedState actualState : JVal) :
    NorthboundPacket :=
  { id := freshId, timestamp := now, traceId := p.traceId,
    sessionId := p.sessionId, sourceLayer := .taskProsecution,
    targetLayer := .cognitiveControl, type := .result,
    summary := "Tool " ++ toolName ++ " executed successfully",
    data := .obj (.cons "result" result
      (.cons "expectedState" expectedState (.cons "actualState" actualState .nil))) }

/-- `TaskProsecutionLayer.handleSouthbound`: drop on a busy lock or blank
content; for a targeted CONTROL or INSTRUCTION, resolve the tool name and
arguments from `parameters`, report FAILURE on a missing tool name or a
failed sandbox check, run loop detection, execute the tool and report RESULT
with the prediction-error and completion detectors applied, or catch the
execution error into a feedback trigger plus a FAILURE report.  All fresh
UUIDs of one invocation are drawn from `freshId`. -/
def tpHandleSouthbound (tools : List AceTool) (cfg : RTConfig) (now : Int)
    (freshId : String) (lockAcquired : Bool) (p : SouthboundPacket)
    (st : RTEngineState) : RTEngineState × List TPEvent :=
  if !lockAcquired then (st, [])
  else if strTrim p.content = "" then (st, [])
  else if ¬(p.targetLayer = .taskProsecution ∧
            (p.type = .control ∨ p.type = .instruction)) then (st, [])
  else
    let toolNameV := jGet p.parameters "tool"
    if !jsTruthy toolNameV then
      (st, [.publishNB (tpFailurePacket p freshId now "No tool specified")])
    else
      let args := tpArgsOf p.parameters
      if !sandboxCheck tools toolNameV args then
        (st, [.publishNB (tpFailurePacket p freshId now
          "Sandbox violation: Tool or args not allowed")])
      else
        let expectedState := generateExpectedState toolNameV now
        let sessionId := match p.sessionId with
          | some s => if s = "" then "default" else s
          | none => "default"
        let (loopTr, st1) := checkLoopDetection cfg now sessionId
          ⟨jStrD toolNameV, args, p.traceId⟩ freshId st
        match loopTr with
        | some tr => (st1, handleReflectionTrigger tr p freshId now)
        | none =>
          match executeToolE tools toolNameV args with
          | (.error msg, execEvs) =>
              let fbEvs :=
                match checkFeedback now p.traceId .negative p.sessionId with
                | some tr => handleReflectionTrigger tr p freshId now
                | none => []
              (st1, execEvs ++ fbEvs ++
                [.publishNB (tpFailurePacket p freshId now
                  ("Tool execution failed: " ++ msg))])
          | (.ok result, execEvs) =>
              let actualState := extractActualState result now
              let (predTr, st2) := checkPredictionError cfg now p.traceId
                expectedState actualState p.sessionId st1
              let predEvs :=
                match predTr with
                | some tr => handleReflectionTrigger tr p freshId now
                | none => []
              let subgoalId :=
                let sg := jGet p.parameters "subgoalId"
                if jsTruthy sg then jStrD sg else "unknown"
              let compEvs :=
                match checkCompletion now p.traceId subgoalId result p.sessionId with
                | some tr => handleReflectionTrigger tr p freshId now
                | none => []
              (st2, execEvs ++ predEvs ++ compEvs ++
                [.publishNB (tpResultPacket p freshId now (jStrD toolNameV)
                  result expectedState actualState)])

/-- Did the handler invoke some registered tool's `execute`? -/
def invokedExecute (evs : List TPEvent) : Bool :=
  evs.any (fun e => match e with | .executed _ _ => true | _ => false)

/-! ## Redaction lemmas -/

mutual
/-- Does a value contain, at any depth, a key matching the sensitive list? -/
def hasSensitiveV (v : JVal) : Bool :=
  match v with
  | .obj fs => hasSensitiveF fs
  | _ => false

/-- Field-list form of `hasSensitiveV`. -/
def hasSensitiveF (fs : JFields) : Bool :=
  match fs with
  | .nil => false
  | .cons k v rest => isSensitiveKey k || hasSensitiveV v || hasSensitiveF rest
end

mutual
theorem redact_clean_v : ∀ (v : JVal), hasSensitiveV v = false → redactValue v = v
  | .obj fs, h => by
      simp only [hasSensitiveV] at h
      simp only [redactValue]
      rw [redact_clean_f fs h]
  | .undef, _ => rfl
  | .null, _ => rfl
  | .bool _, _ => rfl
  | .num _, _ => rfl
  | .str _, _ => rfl

theorem redact_clean_f : ∀ (fs : JFields), hasSensitiveF fs = false → redactFields fs = fs
  | .nil, _ => rfl
  | .cons k v rest, h => by
      simp only [hasSensitiveF, Bool.or_eq_false_iff] at h
      obtain ⟨⟨hk, hv⟩, hrest⟩ := h
      simp only [redactFields, hk, if_false, Bool.false_eq_true]
      rw [redact_clean_v v hv, redact_clean_f rest hrest]
end

/-- Looking a key up after redaction: a sensitive key now holds the marker, a
non-sensitive key the redaction of its old value. -/
theorem redactFields_lookup : ∀ (fs : JFields) (k : String),
    jLookupOpt (redactFields fs) k =
      (jLookupOpt fs k).map
        (fun v => if isSensitiveKey k then JVal.str "[REDACTED]" else redactValue v)
  | .nil, _ => rfl
  | .cons k' v rest, k => by
      simp only [redactFields, jLookupOpt]
      by_cases hk : k' = k
      · subst hk
        simp
      · simp only [hk, if_false]
        exact redactFields_lookup rest k

/-- Any sensitive key reached through non-sensitive ancestors reads as the
redaction marker after `redactObject` ran. -/
theorem redact_path_sensitive : ∀ (path : List String) (v : JVal) (k : String) (w : JVal),
    (∀ q ∈ path, isSensitiveKey q = false) →
    jGetPath v (path ++ [k]) = some w → isSensitiveKey k = true →
    jGetPath (redactValue v) (path ++ [k]) = some (.str "[REDACTED]") := by
  intro path
  induction path with
  | nil =>
    intro v k w _ hget hk
    match v with
    | .obj fs =>
      simp only [List.nil_append, jGetPath] at hget ⊢
      simp only [redactValue, redactFields_lookup]
      match hlk : jLookupOpt fs k with
      | some u => simp [hk]
      | none => rw [hlk] at hget; exact absurd hget (by simp)
    | .undef | .null | .bool _ | .num _ | .str _ =>
      simp [jGetPath] at hget
  | cons q path ih =>
    intro v k w hq hget hk
    match v with
    | .obj fs =>
      simp only [List.cons_append, jGetPath] at hget ⊢
      match hlk : jLookupOpt fs q with
      | some u =>
        rw [hlk] at hget
        have hqns : isSensitiveKey q = false := hq q (List.mem_cons_self q path)
        simp only [redactValue, redactFields_lookup, hlk, Option.map_some, hqns,
          Bool.false_eq_true, if_false]
        exact ih u k w (fun r hr => hq r (List.mem_cons_of_mem q hr)) hget hk
      | none => rw [hlk] at hget; exact absurd hget (by simp)
    | .undef | .null | .bool _ | .num _ | .str _ =>
      simp [jGetPath] at hget

/-- Any key reached through non-sensitive ancestors whose own name is not
sensitive and whose value contains no sensitive key anywhere keeps its value
unchanged through redaction. -/
theorem redact_path_clean : ∀ (path : List String) (v : JVal) (k : String) (w : JVal),
    (∀ q ∈ path, isSensitiveKey q = false) →
    jGetPath v (path ++ [k]) = some w → isSensitiveKey k = false →
    hasSensitiveV w = false →
    jGetPath (redactValue v) (path ++ [k]) = some w := by
  intro path
  induction path with
  | nil =>
    intro v k w _ hget hk hw
    match v with
    | .obj fs =>
      simp only [List.nil_append, jGetPath] at hget ⊢
      simp only [redactValue, redactFields_lookup]
      match hlk : jLookupOpt fs k with
      | some u =>
        rw [hlk] at hget
        simp only [jGetPath] at hget
        simp [hk, hget]
        exact redact_clean_v w hw
      | none => rw [hlk] at hget; exact absurd hget (by simp)
    | .undef | .null | .bool _ | .num _ | .str _ =>
      simp [jGetPath] at hget
  | cons q path ih =>
    intro v k w hq hget hk hw
    match v with
    | .obj fs =>
      simp only [List.cons_append, jGetPath] at hget ⊢
      match hlk : jLookupOpt fs q with
      | some u =>
        rw [hlk] at hget
        have hqns : isSensitiveKey q = false := hq q (List.mem_cons_self q path)
        simp only [redactValue, redactFields_lookup, hlk, Option.map_some, hqns,
          Bool.false_eq_true, if_false]
        exact ih u k w (fun r hr => hq r (List.mem_cons_of_mem q hr)) hget hk hw
      | none => rw [hlk] at hget; exact absurd hget (by simp)
    | .undef | .null | .bool _ | .num _ | .str _ =>
      simp [jGetPath] at hget

/-- Updating a present key and reading it back. -/
theorem jLookup_setField_self : ∀ (fs : JFields) (k : String) (v : JVal),
    jLookupOpt fs k ≠ none → jLookup (jSetField fs k v) k = v
  | .nil, k, v, h => absurd rfl h
  | .cons k' v' rest, k, v, h => by
      simp only [jSetField]
      by_cases hk : k' = k
      · simp [hk, jLookup]
      · simp only [hk, if_false, jLookup]
        simp only [jLookupOpt, hk, if_false] at h
        exact jLookup_setField_self rest k v h

/-- When a key has no entry, reading it yields `undefined`. -/
theorem jLookupOpt_none_lookup_undef : ∀ (fs : JFields) (k : String),
    jLookupOpt fs k = none → jLookup fs k = .undef
  | .nil, _, _ => rfl
  | .cons k' v rest, k, h => by
      simp only [jLookupOpt] at h
      simp only [jLookup]
      by_cases hk : k' = k
      · simp [hk] at h
      · simp only [hk, if_false] at h ⊢
        exact jLookupOpt_none_lookup_undef rest k h

/-- The `data` field the redacted packet carries. -/
theorem redactPacket_data (fs : JFields) (dfs : JFields)
    (hdata : jLookup fs "data" = .obj dfs) :
    jGet (redactPacket (.obj fs)) "data" = redactValue (.obj dfs) := by
  have hopt : jLookupOpt fs "data" ≠ none := by
    intro hnone
    have := jLookupOpt_none_lookup_undef fs "data" hnone
    rw [hdata] at this
    exact absurd this (by simp)
  simp only [redactPacket, hdata, isRedactableData, if_true, jGet]
  exact jLookup_setField_self fs "data" (redactValue (.obj dfs)) hopt

/-- **C7.** For every packet with a malformed required field — a missing
field, a wrongly typed field, a layer or type outside its enum, or an `id`
failing the UUID shape — `publishSouthbound` (resp. `publishNorthbound`)
fails with the validation error and delivers nothing to any subscriber: the
emission and audit-log lists are empty and the overlay state is untouched. -/
theorem C7_malformed_packet_rejected (st : SecState) (p q : JVal) :
    ((checkUuidField p = false ∨ checkTimestampField p = false ∨
      checkTraceIdField p = false ∨
      checkEnumField p "sourceLayer" layerStrings = false ∨
      checkEnumField p "targetLayer" layerStrings = false ∨
      checkEnumField p "type" southboundTypeStrings = false ∨
      checkStrField p "content" = false ∨ checkParamsField p = false) →
      publishSouthbound st p = ⟨st, .error .validation, [], []⟩) ∧
    ((checkUuidField q = false ∨ checkTimestampField q = false ∨
      checkTraceIdField q = false ∨
      checkEnumField q "sourceLayer" layerStrings = false ∨
      checkEnumField q "targetLayer" layerStrings = false ∨
      checkEnumField q "type" northboundTypeStrings = false ∨
      checkStrField q "summary" = false) →
      publishNorthbound q = (.error .validation, [], [])) := by
  constructor
  · intro h
    have hv : validateSB p = false := by
      match p with
      | .obj fs =>
        simp only [validateSB]
        rcases h with h|h|h|h|h|h|h|h <;> simp [h]
      | .undef | .null | .bool _ | .num _ | .str _ => rfl
    simp [publishSouthbound, hv]
  · intro h
    have hv : validateNB q = false := by
      match q with
      | .obj fs =>
        simp only [validateNB]
        rcases h with h|h|h|h|h|h|h <;> simp [h]
      | .undef | .null | .bool _ | .num _ | .str _ => rfl
    simp [publishNorthbound, hv]

/-- Witness for C7 at a southbound packet whose `id` is not a UUID and a
northbound packet missing its `summary`. -/
theorem C7_malformed_packet_rejected_witness :
    publishSouthbound []
      (.obj (.cons "id" (.str "not-a-uuid")
        (.cons "timestamp" (.num 1) (.cons "traceId" (.str "t")
        (.cons "sourceLayer" (.str "ASPIRATIONAL")
        (.cons "targetLayer" (.str "GLOBAL_STRATEGY")
        (.cons "type" (.str "STRATEGY")
        (.cons "content" (.str "hello") .nil)))))))) =
      ⟨[], .error .validation, [], []⟩ ∧
    publishNorthbound
      (.obj (.cons "id" (.str "f47ac10b-58cc-4372-a567-0e02b2c3d479")
        (.cons "timestamp" (.num 1) (.cons "traceId" (.str "t")
        (.cons "sourceLayer" (.str "TASK_PROSECUTION")
        (.cons "targetLayer" (.str "COGNITIVE_CONTROL")
        (.cons "type" (.str "RESULT") .nil))))))) =
      (.error .validation, [], []) := by
  have h := C7_malformed_packet_rejected []
    (.obj (.cons "id" (.str "not-a-uuid")
      (.cons "timestamp" (.num 1) (.cons "traceId" (.str "t")
      (.cons "sourceLayer" (.str "ASPIRATIONAL")
      (.cons "targetLayer" (.str "GLOBAL_STRATEGY")
      (.cons "type" (.str "STRATEGY")
      (.cons "content" (.str "hello") .nil))))))))
    (.obj (.cons "id" (.str "f47ac10b-58cc-4372-a567-0e02b2c3d479")
      (.cons "timestamp" (.num 1) (.cons "traceId" (.str "t")
      (.cons "sourceLayer" (.str "TASK_PROSECUTION")
      (.cons "targetLayer" (.str "COGNITIVE_CONTROL")
      (.cons "type" (.str "RESULT") .nil)))))))
  exact ⟨h.1 (by left; decide), h.2 (by right; right; right; right; right; right; decide)⟩

/-- **C5.** A southbound packet that passes shape validation but whose content
contains a deny-listed destructive fragment makes `publishSouthbound` fail
with a `SecurityError`, and the packet reaches no subscriber and no log: the
overlay throws before the emit step. -/
theorem C5_prohibited_content_rejected (st : SecState) (p : JVal)
    (hvalid : validateSB p = true)
    (hbad : ∃ cmd ∈ PROHIBITED_COMMANDS, strContains (jStrD (jGet p "content")) cmd = true) :
    (∃ msg, publishSouthbound st p = ⟨st, .error (.security msg), [], []⟩) := by
  have hsome : (firstProhibited (jStrD (jGet p "content"))).isSome := by
    unfold firstProhibited
    rw [List.find?_isSome]
    obtain ⟨cmd, hmem, hc⟩ := hbad
    exact ⟨cmd, hmem, hc⟩
  obtain ⟨cmd, hcmd⟩ := Option.isSome_iff_exists.mp hsome
  refine ⟨"Prohibited command detected: " ++ cmd, ?_⟩
  simp [publishSouthbound, hvalid, hcmd]

/-- Witness for C5: a well-formed packet whose content asks for `rm -rf`. -/
theorem C5_prohibited_content_rejected_witness :
    ∃ msg, publishSouthbound []
      (.obj (.cons "id" (.str "f47ac10b-58cc-4372-a567-0e02b2c3d479")
        (.cons "timestamp" (.num 1) (.cons "traceId" (.str "t")
        (.cons "sourceLayer" (.str "EXECUTIVE_FUNCTION")
        (.cons "targetLayer" (.str "COGNITIVE_CONTROL")
        (.cons "type" (.str "INSTRUCTION")
        (.cons "content" (.str "please run rm -rf /tmp/build") .nil)))))))) =
      ⟨[], .error (.security msg), [], []⟩ :=
  C5_prohibited_content_rejected []
    (.obj (.cons "id" (.str "f47ac10b-58cc-4372-a567-0e02b2c3d479")
      (.cons "timestamp" (.num 1) (.cons "traceId" (.str "t")
      (.cons "sourceLayer" (.str "EXECUTIVE_FUNCTION")
      (.cons "targetLayer" (.str "COGNITIVE_CONTROL")
      (.cons "type" (.str "INSTRUCTION")
      (.cons "content" (.str "please run rm -rf /tmp/build") .nil))))))))
    (by decide) ⟨"rm -rf", by decide⟩

/-- Setting an existing index and reading it back. -/
theorem listSet_get_self {α : Type} : ∀ (l : List α) (i : Nat) (v : α),
    l.get? i ≠ none → (l.set i v).get? i = some v
  | [], i, v, h => absurd rfl h
  | _ :: _, 0, v, _ => rfl
  | _ :: rest, i + 1, v, h => by
      simp only [List.get?] at h
      simp only [List.set, List.get?]
      exact listSet_get_self rest i v h

/-- **C6.** For a northbound packet whose `data` object contains, at any
nesting depth reached through non-sensitive keys, a key matching the
case-insensitive sensitive list, the packet that `publishNorthbound` both
logs and delivers carries the redaction marker as that key's value, while a
sibling key matching no sensitive name (and containing none below it) keeps
its value unchanged. -/
theorem C6_sensitive_data_redacted (p : JVal) (fs dfs : JFields)
    (hp : p = .obj fs) (hdata : jLookup fs "data" = .obj dfs)
    (hvalid : validateNB p = true) :
    publishNorthbound p =
      (.ok (), [redactPacket p],
       [(jStrD (jGet (redactPacket p) "targetLayer"), redactPacket p)]) ∧
    (∀ (path : List String) (k : String) (w : JVal),
      (∀ q ∈ path, isSensitiveKey q = false) →
      jGetPath (.obj dfs) (path ++ [k]) = some w → isSensitiveKey k = true →
      jGetPath (jGet (redactPacket p) "data") (path ++ [k]) = some (.str "[REDACTED]")) ∧
    (∀ (path : List String) (k : String) (w : JVal),
      (∀ q ∈ path, isSensitiveKey q = false) →
      jGetPath (.obj dfs) (path ++ [k]) = some w → isSensitiveKey k = false →
      hasSensitiveV w = false →
      jGetPath (jGet (redactPacket p) "data") (path ++ [k]) = some w) := by
  subst hp
  refine ⟨?_, ?_, ?_⟩
  · simp [publishNorthbound, hvalid]
  · intro path k w hpath hget hk
    rw [redactPacket_data fs dfs hdata]
    exact redact_path_sensitive path (.obj dfs) k w hpath hget hk
  · intro path k w hpath hget hk hw
    rw [redactPacket_data fs dfs hdata]
    exact redact_path_clean path (.obj dfs) k w hpath hget hk hw

/-- The `data` payload of the C6 witness packet. -/
def c6WitnessData : JFields :=
  .cons "password" (.str "hunter2")
    (.cons "note" (.str "ok")
      (.cons "cfg" (.obj (.cons "apiKey" (.str "k") (.cons "keep" (.num 1) .nil)))
        .nil))

/-- The field list of the C6 witness packet. -/
def c6WitnessFields : JFields :=
  .cons "id" (.str "f47ac10b-58cc-4372-a567-0e02b2c3d479")
    (.cons "timestamp" (.num 1)
      (.cons "traceId" (.str "t")
        (.cons "sourceLayer" (.str "TASK_PROSECUTION")
          (.cons "targetLayer" (.str "COGNITIVE_CONTROL")
            (.cons "type" (.str "RESULT")
              (.cons "summary" (.str "done")
                (.cons "data" (.obj c6WitnessData) .nil)))))))

/-- Witness for C6: a telemetry payload holding a top-level `password`, a
nested `apiKey`, and a clean sibling `note`. -/
theorem C6_sensitive_data_redacted_witness :
    jGetPath (jGet (redactPacket (.obj c6WitnessFields)) "data") ["password"] =
      some (.str "[REDACTED]") ∧
    jGetPath (jGet (redactPacket (.obj c6WitnessFields)) "data") ["cfg", "apiKey"] =
      some (.str "[REDACTED]") ∧
    jGetPath (jGet (redactPacket (.obj c6WitnessFields)) "data") ["note"] =
      some (.str "ok") := by
  have h := C6_sensitive_data_redacted (.obj c6WitnessFields) c6WitnessFields
    c6WitnessData rfl (by decide) (by decide)
  refine ⟨?_, ?_, ?_⟩
  · exact h.2.1 [] "password" (.str "hunter2") (by decide) (by decide) (by decide)
  · exact h.2.1 ["cfg"] "apiKey" (.str "k") (by decide) (by decide) (by decide)
  · exact h.2.2 [] "note" (.str "ok") (by decide) (by decide) (by decide) (by decide)

/-- **C10.** `publishNorthbound` redacts by mutating the caller's object in
place: in the reference semantics, after publishing a packet whose `data`
cell holds an object, the very cell the caller still references now holds the
redacted object (so the caller reads sensitive keys back as the marker), the
delivered packet carries the same reference — the bus never copies the packet
before modifying it — and every value under the caller's object reached
through keys matching no sensitive name (with no sensitive key below it) is
unchanged. -/
theorem C10_redaction_mutates_in_place (store : List JVal) (mfs : JFields)
    (ref : Nat) (dfs : JFields)
    (hd : store.get? ref = some (.obj dfs))
    (hvalid : validateNB (.obj (jSetField mfs "data" (.obj dfs))) = true) :
    (publishNorthboundStore store (.obj mfs) ref).1 =
      store.set ref (redactValue (.obj dfs)) ∧
    (publishNorthboundStore store (.obj mfs) ref).2.2 =
      [(jStrD (jGet (.obj (jSetField mfs "data" (.obj dfs))) "targetLayer"), ref)] ∧
    (publishNorthboundStore store (.obj mfs) ref).1.get? ref =
      some (redactValue (.obj dfs)) ∧
    (∀ (path : List String) (k : String) (w : JVal),
      (∀ q ∈ path, isSensitiveKey q = false) →
      jGetPath (.obj dfs) (path ++ [k]) = some w → isSensitiveKey k = true →
      jGetPath (redactValue (.obj dfs)) (path ++ [k]) = some (.str "[REDACTED]")) ∧
    (∀ (path : List String) (k : String) (w : JVal),
      (∀ q ∈ path, isSensitiveKey q = false) →
      jGetPath (.obj dfs) (path ++ [k]) = some w → isSensitiveKey k = false →
      hasSensitiveV w = false →
      jGetPath (redactValue (.obj dfs)) (path ++ [k]) = some w) := by
  have hrun : publishNorthboundStore store (.obj mfs) ref =
      (store.set ref (redactValue (.obj dfs)), .ok (),
       [(jStrD (jGet (.obj (jSetField mfs "data" (.obj dfs))) "targetLayer"), ref)]) := by
    have hd' : store[ref]? = some (.obj dfs) := by
      rw [← List.get?_eq_getElem?]; exact hd
    simp [publishNorthboundStore, hd', hvalid, isRedactableData]
  refine ⟨by rw [hrun], by rw [hrun], ?_, ?_, ?_⟩
  · rw [hrun]
    exact listSet_get_self store ref _ (by rw [hd]; exact fun hc => by cases hc)
  · intro path k w hpath hget hk
    exact redact_path_sensitive path (.obj dfs) k w hpath hget hk
  · intro path k w hpath hget hk hw
    exact redact_path_clean path (.obj dfs) k w hpath hget hk hw

/-- The metadata fields (everything but `data`) of the C10 witness packet. -/
def c10WitnessMeta : JFields :=
  .cons "id" (.str "f47ac10b-58cc-4372-a567-0e02b2c3d479")
    (.cons "timestamp" (.num 1)
      (.cons "traceId" (.str "t")
        (.cons "sourceLayer" (.str "TASK_PROSECUTION")
          (.cons "targetLayer" (.str "COGNITIVE_CONTROL")
            (.cons "type" (.str "RESULT")
              (.cons "summary" (.str "done")
                (.cons "data" .undef .nil)))))))

/-- The caller-held data object of the C10 witness. -/
def c10WitnessData : JFields :=
  .cons "token" (.str "tok123") (.cons "note" (.str "ok") .nil)

/-- Witness for C10: after publishing, the caller's single-cell store holds
the redacted object at the same reference, which is also what was emitted. -/
theorem C10_redaction_mutates_in_place_witness :
    (publishNorthboundStore [.obj c10WitnessData] (.obj c10WitnessMeta) 0).1 =
      [.obj (.cons "token" (.str "[REDACTED]") (.cons "note" (.str "ok") .nil))] ∧
    (publishNorthboundStore [.obj c10WitnessData] (.obj c10WitnessMeta) 0).2.2 =
      [("COGNITIVE_CONTROL", 0)] := by
  have h := C10_redaction_mutates_in_place [.obj c10WitnessData] c10WitnessMeta 0
    c10WitnessData (by decide) (by decide)
  refine ⟨?_, ?_⟩
  · rw [h.1]; decide
  · rw [h.2.1]; decide

/-! ## Cognitive Control claims (C1, C4) -/

/-- One delivered Task-Prosecution FAILURE with a non-blank summary steps the
machine by incrementing the counter, entering FRUSTRATED at or above the
threshold, and emitting the frustration signal exactly on those steps. -/
theorem ccFailure_step (fid : String) (now : Int) (p : NorthboundPacket)
    (s : CCState) (hsrc : p.sourceLayer = .taskProsecution)
    (hty : p.type = .failure) (hsum : strTrim p.summary ≠ "") :
    ccHandleNorthbound fid now p s =
      (⟨if FRUSTRATION_THRESHOLD ≤ s.failureCount + 1 then .frustrated else s.state,
        s.failureCount + 1⟩,
       if FRUSTRATION_THRESHOLD ≤ s.failureCount + 1
       then [frustrationSignalPacket fid now p (s.failureCount + 1)] else []) := by
  by_cases hth : FRUSTRATION_THRESHOLD ≤ s.failureCount + 1
  · simp [ccHandleNorthbound, hsum, hsrc, hty, hth]
  · simp [ccHandleNorthbound, hsum, hsrc, hty, hth]

/-- A run of consecutive Task-Prosecution FAILUREs from any starting state:
the counter advances by the run length, FRUSTRATED is reached exactly when
the counter has passed the threshold during the run, every packet published
is a FRUSTRATION_SIGNAL, and their number is the number of steps whose
counter value reached the threshold. -/
theorem ccFailure_run : ∀ (items : List (NorthboundPacket × String × Int))
    (f : FocusState) (c : Nat),
    (∀ i ∈ items, i.1.sourceLayer = .taskProsecution ∧ i.1.type = .failure ∧
      strTrim i.1.summary ≠ "") →
    (ccRunNorthbound items ⟨f, c⟩).1 =
      ⟨if 1 ≤ items.length ∧ FRUSTRATION_THRESHOLD ≤ c + items.length
        then .frustrated else f, c + items.length⟩ ∧
    ((ccRunNorthbound items ⟨f, c⟩).2).length =
      max (c + items.length) 2 - max c 2 ∧
    (∀ q ∈ (ccRunNorthbound items ⟨f, c⟩).2, q.type = .frustrationSignal) := by
  intro items
  induction items with
  | nil =>
    intro f c _
    refine ⟨by simp [ccRunNorthbound], by simp [ccRunNorthbound], by simp [ccRunNorthbound]⟩
  | cons i rest ih =>
    intro f c hall
    obtain ⟨p, fid, now⟩ := i
    obtain ⟨hsrc, hty, hsum⟩ := hall (p, fid, now) (List.mem_cons_self _ _)
    have hrest := fun j hj => hall j (List.mem_cons_of_mem _ hj)
    have hstep := ccFailure_step fid now p ⟨f, c⟩ hsrc hty hsum
    by_cases hth : FRUSTRATION_THRESHOLD ≤ c + 1
    · have hth3 : 3 ≤ c + 1 := hth
      have ihh := ih FocusState.frustrated (c + 1) hrest
      simp only [ccRunNorthbound, hstep, hth, if_true]
      refine ⟨?_, ?_, ?_⟩
      · rw [ihh.1]
        have h1 : (1:Nat) ≤ rest.length + 1 := by omega
        have h4 : FRUSTRATION_THRESHOLD ≤ c + (rest.length + 1) := by
          show 3 ≤ c + (rest.length + 1)
          omega
        have hfc : c + 1 + rest.length = c + (rest.length + 1) := by omega
        simp [List.length_cons, ite_self, hfc, h1, h4]
      · have hlen := ihh.2.1
        simp only [List.length_append, List.length_cons, List.length_nil, hlen,
          List.length_cons]
        have hc3 : (3:Nat) ≤ c + 1 := hth3
        omega
      · intro q hq
        rcases List.mem_append.mp hq with hq | hq
        · rw [List.mem_singleton] at hq
          subst hq
          rfl
        · exact ihh.2.2 q hq
    · have hth3 : ¬ (3 ≤ c + 1) := hth
      have ihh := ih f (c + 1) hrest
      simp only [ccRunNorthbound, hstep, hth, if_false]
      refine ⟨?_, ?_, ?_⟩
      · rw [ihh.1]
        have hfc : c + 1 + rest.length = c + (rest.length + 1) := by omega
        simp only [List.length_cons, hfc]
        by_cases hr : FRUSTRATION_THRESHOLD ≤ c + (rest.length + 1)
        · have hr3 : 3 ≤ c + (rest.length + 1) := hr
          have h1 : (1:Nat) ≤ rest.length := by omega
          have h2 : (1:Nat) ≤ rest.length + 1 := by omega
          simp [hr, h1, h2]
        · simp [hr]
      · have hlen := ihh.2.1
        simp only [List.nil_append, List.length_cons, hlen]
        have hc3 : ¬ ((3:Nat) ≤ c + 1) := hth3
        omega
      · intro q hq
        simp only [List.nil_append] at hq
        exact ihh.2.2 q hq

/-- **C1 (amended).** The FocusState machine: (a) from IDLE, handling one
delivered southbound INSTRUCTION moves the state to EXECUTING (with the
counter zeroed); (b) from the initial state, handling N ≥ threshold (3)
consecutive northbound FAILUREs from Task Prosecution moves the state to
FRUSTRATED and publishes a FRUSTRATION_SIGNAL on the failure reaching the
threshold and on every failure after it — N − 2 signals in total, exactly one
precisely when N = 3, because the counter is not reset after the signal;
(c) a RESULT from Task Prosecution while EXECUTING or BLOCKED returns the
state to IDLE and zeroes the failure counter. -/
theorem C1_focus_state_machine :
    (∀ (lock : Bool) (p : SouthboundPacket) (s : CCState),
      lock = true → strTrim p.content ≠ "" → p.targetLayer = .cognitiveControl →
      p.type = .instruction → s.state = .idle →
      (ccHandleSouthbound lock p s).1 = ⟨.executing, 0⟩) ∧
    (∀ (items : List (NorthboundPacket × String × Int)),
      (∀ i ∈ items, i.1.sourceLayer = .taskProsecution ∧ i.1.type = .failure ∧
        strTrim i.1.summary ≠ "") →
      3 ≤ items.length →
      (ccRunNorthbound items ⟨.idle, 0⟩).1.state = .frustrated ∧
      ((ccRunNorthbound items ⟨.idle, 0⟩).2).length = items.length - 2 ∧
      (∀ q ∈ (ccRunNorthbound items ⟨.idle, 0⟩).2, q.type = .frustrationSignal)) ∧
    (∀ (fid : String) (now : Int) (p : NorthboundPacket) (s : CCState),
      strTrim p.summary ≠ "" → p.sourceLayer = .taskProsecution →
      p.type = .result → (s.state = .executing ∨ s.state = .blocked) →
      (ccHandleNorthbound fid now p s).1 = ⟨.idle, 0⟩) := by
  refine ⟨?_, ?_, ?_⟩
  · intro lock p s hlock hcontent htarget htype _
    simp [ccHandleSouthbound, hlock, hcontent, htarget, htype]
  · intro items hall hlen
    have h := ccFailure_run items .idle 0 hall
    have h1 : (1:Nat) ≤ items.length := by omega
    have h3 : FRUSTRATION_THRESHOLD ≤ 0 + items.length := by
      show 3 ≤ 0 + items.length
      omega
    have h3' : FRUSTRATION_THRESHOLD ≤ items.length := by
      show 3 ≤ items.length
      omega
    refine ⟨?_, ?_, h.2.2⟩
    · rw [h.1]
      simp [h1, h3, h3']
    · rw [h.2.1]
      omega
  · intro fid now p s hsum hsrc hty hstate
    have hcond : p.sourceLayer = AceLayerID.taskProsecution ∧
        p.type = NorthboundType.result ∧
        (s.state = FocusState.executing ∨ s.state = FocusState.blocked) :=
      ⟨hsrc, hty, hstate⟩
    have hnf : ¬ (p.type = NorthboundType.failure) := by
      rw [hty]; intro h; cases h
    simp [ccHandleNorthbound, hsum, hcond, hsrc, hty]

/-- The FAILURE packet of the C1 counterexample run. -/
def c1FailurePacket : NorthboundPacket :=
  { id := "f47ac10b-58cc-4372-a567-0e02b2c3d479", timestamp := 0, traceId := "t",
    sourceLayer := .taskProsecution, targetLayer := .cognitiveControl,
    type := .failure, summary := "tool failed", data := .undef }

/-- Counterexample to C1 as stated: handling N = 4 ≥ 3 consecutive FAILUREs
publishes two FRUSTRATION_SIGNAL packets, not exactly one — the counter is
never reset after the first signal, so every further failure re-fires. -/
theorem C1_counterexample :
    3 ≤ (List.replicate 4 (c1FailurePacket, "u", (0:Int))).length ∧
    ((ccRunNorthbound (List.replicate 4 (c1FailurePacket, "u", (0:Int)))
      ⟨.idle, 0⟩).2).length = 2 := by
  decide

/-- Witness for C1: a three-failure run from the initial state ends
FRUSTRATED having published exactly one FRUSTRATION_SIGNAL, and the
INSTRUCTION and RESULT transitions at concrete packets. -/
theorem C1_focus_state_machine_witness :
    (ccHandleSouthbound true
      { id := "a", timestamp := 0, traceId := "t", sourceLayer := .executiveFunction,
        targetLayer := .cognitiveControl, type := .instruction,
        content := "Execute task: build", parameters := .undef }
      ⟨.idle, 0⟩).1 = ⟨.executing, 0⟩ ∧
    (ccRunNorthbound (List.replicate 3 (c1FailurePacket, "u", (0:Int)))
      ⟨.idle, 0⟩).1.state = .frustrated ∧
    ((ccRunNorthbound (List.replicate 3 (c1FailurePacket, "u", (0:Int)))
      ⟨.idle, 0⟩).2).length = 1 ∧
    (ccHandleNorthbound "u" 0
      { id := "b", timestamp := 0, traceId := "t", sourceLayer := .taskProsecution,
        targetLayer := .cognitiveControl, type := .result, summary := "done",
        data := .undef }
      ⟨.executing, 2⟩).1 = ⟨.idle, 0⟩ := by
  have h := C1_focus_state_machine
  refine ⟨?_, ?_, ?_, ?_⟩
  · exact h.1 true _ _ rfl (by decide) rfl rfl rfl
  · exact (h.2.1 (List.replicate 3 (c1FailurePacket, "u", (0:Int)))
      (by decide) (by decide)).1
  · have := (h.2.1 (List.replicate 3 (c1FailurePacket, "u", (0:Int)))
      (by decide) (by decide)).2.1
    rw [this]
    decide
  · exact h.2.2 "u" 0 _ _ (by decide) rfl rfl (Or.inl rfl)

/-- **C4 (amended).** FRUSTRATED is entered only when the consecutive-failure
counter reaches the threshold (no southbound packet enters it, and a
northbound packet entering it is a Task-Prosecution FAILURE that pushed the
counter to the threshold); no northbound packet moves the state out of
FRUSTRATED, and `resetState` returns the machine to IDLE — but a delivered
southbound packet can exit FRUSTRATED: a targeted INSTRUCTION moves it to
EXECUTING and a CONTROL packet with content `"BLOCKED"` moves it to
BLOCKED. -/
theorem C4_frustrated_entry_exit :
    (∀ (lock : Bool) (p : SouthboundPacket) (s : CCState),
      s.state ≠ .frustrated → (ccHandleSouthbound lock p s).1.state ≠ .frustrated) ∧
    (∀ (fid : String) (now : Int) (p : NorthboundPacket) (s : CCState),
      s.state ≠ .frustrated → (ccHandleNorthbound fid now p s).1.state = .frustrated →
      p.sourceLayer = .taskProsecution ∧ p.type = .failure ∧
      FRUSTRATION_THRESHOLD ≤ (ccHandleNorthbound fid now p s).1.failureCount) ∧
    (∀ (fid : String) (now : Int) (p : NorthboundPacket) (s : CCState),
      s.state = .frustrated → (ccHandleNorthbound fid now p s).1.state = .frustrated) ∧
    (∀ (lock : Bool) (p : SouthboundPacket) (s : CCState),
      s.state = .frustrated → (ccHandleSouthbound lock p s).1.state ≠ .frustrated →
      (p.targetLayer = .cognitiveControl ∧ p.type = .instruction ∧
        (ccHandleSouthbound lock p s).1 = ⟨.executing, 0⟩) ∨
      (p.type = .control ∧ p.content = "BLOCKED" ∧
        (ccHandleSouthbound lock p s).1 = ⟨.blocked, s.failureCount⟩)) ∧
    (∀ s : CCState, ccResetState s = ⟨.idle, 0⟩) := by
  refine ⟨?_, ?_, ?_, ?_, fun _ => rfl⟩
  · intro lock p s hs
    cases lock with
    | false =>
      have hrun : ccHandleSouthbound false p s = (s, []) := by
        simp [ccHandleSouthbound]
      rw [hrun]
      exact hs
    | true =>
      by_cases hc1 : strTrim p.content = ""
      · have hrun : ccHandleSouthbound true p s = (s, []) := by
          simp [ccHandleSouthbound, hc1]
        rw [hrun]
        exact hs
      · by_cases hc2 : p.targetLayer = AceLayerID.cognitiveControl ∧
            p.type = SouthboundType.instruction
        · have hrun : (ccHandleSouthbound true p s).1 = ⟨.executing, 0⟩ := by
            simp [ccHandleSouthbound, hc1, hc2]
          rw [hrun]
          intro h
          cases h
        · by_cases hc3 : p.type = SouthboundType.control ∧ p.content = "BLOCKED"
          · have hrun : (ccHandleSouthbound true p s).1 = { s with state := .blocked } := by
              simp [ccHandleSouthbound, hc1, hc2, hc3,
                (by decide : strTrim "BLOCKED" ≠ "")]
            rw [hrun]
            intro h
            cases h
          · have hrun : ccHandleSouthbound true p s = (s, []) := by
              simp [ccHandleSouthbound, hc1, hc2, hc3]
            rw [hrun]
            exact hs
  · intro fid now p s hs hfr
    by_cases hb : strTrim p.summary = ""
    · have hrun : ccHandleNorthbound fid now p s = (s, []) := by
        simp [ccHandleNorthbound, hb]
      rw [hrun] at hfr
      exact absurd hfr hs
    · by_cases hfail : p.sourceLayer = AceLayerID.taskProsecution ∧
          p.type = NorthboundType.failure
      · have hstep := ccFailure_step fid now p s hfail.1 hfail.2 hb
        rw [hstep] at hfr ⊢
        by_cases hth : FRUSTRATION_THRESHOLD ≤ s.failureCount + 1
        · simp only [hth, if_true]
          exact ⟨hfail.1, hfail.2, by simp [hth]⟩
        · simp only [hth, if_false] at hfr
          exact absurd hfr hs
      · by_cases hres : p.sourceLayer = AceLayerID.taskProsecution ∧
            p.type = NorthboundType.result ∧
            (s.state = FocusState.executing ∨ s.state = FocusState.blocked)
        · have hrun : ccHandleNorthbound fid now p s =
              (⟨FocusState.idle, 0⟩, []) := by
            simp [ccHandleNorthbound, hb, hres, hfail]
          rw [hrun] at hfr
          exact absurd hfr (by intro h; cases h)
        · have hrun : ccHandleNorthbound fid now p s = (s, []) := by
            simp only [ccHandleNorthbound, hb, if_false, if_neg hres, if_neg hfail]
          rw [hrun] at hfr
          exact absurd hfr hs
  · intro fid now p s hs
    by_cases hb : strTrim p.summary = ""
    · have hrun : ccHandleNorthbound fid now p s = (s, []) := by
        simp [ccHandleNorthbound, hb]
      rw [hrun]
      exact hs
    · by_cases hfail : p.sourceLayer = AceLayerID.taskProsecution ∧
          p.type = NorthboundType.failure
      · have hstep := ccFailure_step fid now p s hfail.1 hfail.2 hb
        rw [hstep]
        by_cases hth : FRUSTRATION_THRESHOLD ≤ s.failureCount + 1
        · simp [hth]
        · simp [hth, hs]
      · by_cases hres : p.sourceLayer = AceLayerID.taskProsecution ∧
            p.type = NorthboundType.result ∧
            (s.state = FocusState.executing ∨ s.state = FocusState.blocked)
        · exact absurd hres.2.2 (by rw [hs]; rintro (h | h) <;> cases h)
        · have hrun : ccHandleNorthbound fid now p s = (s, []) := by
            simp only [ccHandleNorthbound, hb, if_false, if_neg hres, if_neg hfail]
          rw [hrun]
          exact hs
  · intro lock p s hs hexit
    cases lock with
    | false =>
      have hrun : ccHandleSouthbound false p s = (s, []) := by
        simp [ccHandleSouthbound]
      rw [hrun] at hexit
      exact absurd hs hexit
    | true =>
      by_cases hc1 : strTrim p.content = ""
      · have hrun : ccHandleSouthbound true p s = (s, []) := by
          simp [ccHandleSouthbound, hc1]
        rw [hrun] at hexit
        exact absurd hs hexit
      · by_cases hc2 : p.targetLayer = AceLayerID.cognitiveControl ∧
            p.type = SouthboundType.instruction
        · refine Or.inl ⟨hc2.1, hc2.2, ?_⟩
          simp [ccHandleSouthbound, hc1, hc2]
        · by_cases hc3 : p.type = SouthboundType.control ∧ p.content = "BLOCKED"
          · refine Or.inr ⟨hc3.1, hc3.2, ?_⟩
            have hrun : (ccHandleSouthbound true p s).1 = { s with state := .blocked } := by
              simp [ccHandleSouthbound, hc1, hc2, hc3,
                (by decide : strTrim "BLOCKED" ≠ "")]
            rw [hrun]
          · have hrun : ccHandleSouthbound true p s = (s, []) := by
              simp [ccHandleSouthbound, hc1, hc2, hc3]
            rw [hrun] at hexit
            exact absurd hs hexit

/-- The INSTRUCTION packet of the C4 counterexample. -/
def c4InstructionPacket : SouthboundPacket :=
  { id := "f47ac10b-58cc-4372-a567-0e02b2c3d479", timestamp := 0, traceId := "t",
    sourceLayer := .executiveFunction, targetLayer := .cognitiveControl,
    type := .instruction, content := "Execute task: retry", parameters := .undef }

/-- Counterexample to C4 as stated: a delivered southbound INSTRUCTION alone
moves the state out of FRUSTRATED (to EXECUTING), without any `resetState`
call. -/
theorem C4_counterexample :
    (ccHandleSouthbound true c4InstructionPacket ⟨.frustrated, 3⟩).1.state =
      .executing ∧
    FocusState.executing ≠ FocusState.frustrated := by
  decide

/-- Witness for C4: FRUSTRATED survives a northbound RESULT, entry happens at
the threshold, and a southbound STATUS-irrelevant packet does not enter
FRUSTRATED. -/
theorem C4_frustrated_entry_exit_witness :
    (ccHandleNorthbound "u" 0
      { id := "b", timestamp := 0, traceId := "t", sourceLayer := .taskProsecution,
        targetLayer := .cognitiveControl, type := .result, summary := "done",
        data := .undef }
      ⟨.frustrated, 3⟩).1.state = .frustrated ∧
    (ccHandleSouthbound true
      { id := "a", timestamp := 0, traceId := "t", sourceLayer := .executiveFunction,
        targetLayer := .cognitiveControl, type := .plan, content := "plan",
        parameters := .undef }
      ⟨.idle, 0⟩).1.state ≠ .frustrated := by
  have h := C4_frustrated_entry_exit
  refine ⟨?_, ?_⟩
  · exact h.2.2.1 "u" 0 _ ⟨.frustrated, 3⟩ rfl
  · exact h.1 true _ ⟨.idle, 0⟩ (by decide)

/-! ## Reflection-trigger cooldown claims (C2) -/

theorem mapGet?_mapSet_self {α : Type} : ∀ (m : List (String × α)) (k : String) (v : α),
    mapGet? (mapSet m k v) k = some v
  | [], k, v => by simp [mapSet, mapGet?]
  | (k', v') :: rest, k, v => by
      simp only [mapSet]
      by_cases hk : k' = k
      · simp [hk, mapGet?]
      · simp only [hk, if_false, mapGet?]
        exact mapGet?_mapSet_self rest k v

/-- A passing `checkCooldown` call wrote `now + cooldownMs` under the
trigger's key. -/
theorem checkCooldown_true_map (cfg : RTConfig) (now : Int) (tr : ReflectionTrigger)
    (st st' : RTEngineState) (h : checkCooldown cfg now tr st = (true, st')) :
    mapGet? st'.cooldownMap (cooldownKey tr.type tr.sessionId) =
      some (now + cfg.cooldownMs) := by
  unfold checkCooldown at h
  split at h
  · cases h
  · injection h with h1 h2
    rw [← h2]
    exact mapGet?_mapSet_self _ _ _

/-- Inside an open window, `checkCooldown` reports `false` and leaves the
state alone. -/
theorem checkCooldown_blocked (cfg : RTConfig) (now : Int) (tr : ReflectionTrigger)
    (st : RTEngineState) (u : Int)
    (hlk : mapGet? st.cooldownMap (cooldownKey tr.type tr.sessionId) = some u)
    (hnow : now < u) :
    checkCooldown cfg now tr st = (false, st) := by
  unfold checkCooldown
  rw [hlk]
  simp [hnow]

/-- A delivered trigger from the cooldown gate opened a window under its
key. -/
theorem gateCooldown_fires (cfg : RTConfig) (now : Int) (tr : ReflectionTrigger)
    (st : RTEngineState) (tr' : ReflectionTrigger) (st' : RTEngineState)
    (h : gateCooldown cfg now tr st = (some tr', st')) :
    mapGet? st'.cooldownMap (cooldownKey tr.type tr.sessionId) =
      some (now + cfg.cooldownMs) := by
  unfold gateCooldown at h
  rcases hcc : checkCooldown cfg now tr st with ⟨ok, st1⟩
  rw [hcc] at h
  cases ok
  · simp at h
  · simp only [if_true] at h
    have h2 : st1 = st' := congrArg Prod.snd h
    rw [← h2]
    exact checkCooldown_true_map cfg now tr st st1 hcc

/-- Inside an open window the gate is shut. -/
theorem gateCooldown_blocked (cfg : RTConfig) (now : Int) (tr : ReflectionTrigger)
    (st : RTEngineState) (u : Int)
    (hlk : mapGet? st.cooldownMap (cooldownKey tr.type tr.sessionId) = some u)
    (hnow : now < u) :
    gateCooldown cfg now tr st = (none, st) := by
  unfold gateCooldown
  rw [checkCooldown_blocked cfg now tr st u hlk hnow]
  simp

/-- A firing prediction-error call opened a cooldown window under its key. -/
theorem checkPredictionError_fires (cfg : RTConfig) (t : Int) (tid : String)
    (e a : JVal) (sid : Option String) (st : RTEngineState)
    (tr : ReflectionTrigger) (st' : RTEngineState)
    (h : checkPredictionError cfg t tid e a sid st = (some tr, st')) :
    mapGet? st'.cooldownMap (cooldownKey .predictionError sid) =
      some (t + cfg.cooldownMs) := by
  unfold checkPredictionError at h
  split at h
  · exact gateCooldown_fires _ _ _ _ _ _ h
  · exact absurd (congrArg Prod.fst h) (by simp)

/-- Inside that window, a second prediction-error call for the same session
returns no trigger. -/
theorem checkPredictionError_blocked (cfg : RTConfig) (t : Int) (tid : String)
    (e a : JVal) (sid : Option String) (st : RTEngineState) (u : Int)
    (hlk : mapGet? st.cooldownMap (cooldownKey .predictionError sid) = some u)
    (hnow : t < u) :
    (checkPredictionError cfg t tid e a sid st).1 = none := by
  unfold checkPredictionError
  split
  · rw [gateCooldown_blocked cfg t _ st u hlk hnow]
  · rfl

/-- A firing loop-detection call opened a cooldown window under its key. -/
theorem checkLoopDetection_fires (cfg : RTConfig) (now : Int) (sid : String)
    (act : RTAction) (fid : String) (st : RTEngineState)
    (tr : ReflectionTrigger) (st' : RTEngineState)
    (h : checkLoopDetection cfg now sid act fid st = (some tr, st')) :
    mapGet? st'.cooldownMap (cooldownKey .loopDetection (some sid)) =
      some (now + cfg.cooldownMs) := by
  simp only [checkLoopDetection] at h
  split at h
  · exact absurd (congrArg Prod.fst h) (by simp)
  · split at h
    · split at h
      · rename_i hok
        rcases hcc : checkCooldown cfg now (loopTrigger sid act fid now) st with ⟨ok, st1⟩
        rw [hcc] at hok h
        simp only [] at hok
        subst hok
        have h2 := congrArg Prod.snd h
        simp only [] at h2
        rw [← h2]
        exact checkCooldown_true_map cfg now _ st st1 (by rw [hcc])
      · exact absurd (congrArg Prod.fst h) (by simp)
    · exact absurd (congrArg Prod.fst h) (by simp)

/-- Inside that window, a second loop-detection call for the same session
returns no trigger. -/
theorem checkLoopDetection_blocked (cfg : RTConfig) (now : Int) (sid : String)
    (act : RTAction) (fid : String) (st : RTEngineState) (u : Int)
    (hlk : mapGet? st.cooldownMap (cooldownKey .loopDetection (some sid)) = some u)
    (hnow : now < u) :
    (checkLoopDetection cfg now sid act fid st).1 = none := by
  simp only [checkLoopDetection]
  split
  · rfl
  · split
    · rw [checkCooldown_blocked cfg now (loopTrigger sid act fid now) st u hlk hnow]
      simp
    · rfl

/-- A firing stagnation call opened a cooldown window under its key. -/
theorem checkStagnation_fires (cfg : RTConfig) (now : Int) (sid : String)
    (progress : ℚ) (fid : String) (st : RTEngineState)
    (tr : ReflectionTrigger) (st' : RTEngineState)
    (h : checkStagnation cfg now sid progress fid st = (some tr, st')) :
    mapGet? st'.cooldownMap (cooldownKey .stagnation (some sid)) =
      some (now + cfg.cooldownMs) := by
  simp only [checkStagnation] at h
  split at h
  · exact absurd (congrArg Prod.fst h) (by simp)
  · split at h
    · exact gateCooldown_fires _ _ _ _ _ _ h
    · exact absurd (congrArg Prod.fst h) (by simp)

/-- Inside that window, a second stagnation call for the same session returns
no trigger. -/
theorem checkStagnation_blocked (cfg : RTConfig) (now : Int) (sid : String)
    (progress : ℚ) (fid : String) (st : RTEngineState) (u : Int)
    (hlk : mapGet? st.cooldownMap (cooldownKey .stagnation (some sid)) = some u)
    (hnow : now < u) :
    (checkStagnation cfg now sid progress fid st).1 = none := by
  simp only [checkStagnation]
  split
  · rfl
  · split
    · rw [gateCooldown_blocked cfg now _ _ u hlk hnow]
    · rfl

/-- A firing accumulation call opened a cooldown window under its key. -/
theorem checkAccumulation_fires (cfg : RTConfig) (now : Int) (sid : String)
    (usage : ℚ) (fid : String) (st : RTEngineState)
    (tr : ReflectionTrigger) (st' : RTEngineState)
    (h : checkAccumulation cfg now sid usage fid st = (some tr, st')) :
    mapGet? st'.cooldownMap (cooldownKey .accumulation (some sid)) =
      some (now + cfg.cooldownMs) := by
  unfold checkAccumulation at h
  split at h
  · exact gateCooldown_fires _ _ _ _ _ _ h
  · exact absurd (congrArg Prod.fst h) (by simp)

/-- Inside that window, a second accumulation call for the same session
returns no trigger. -/
theorem checkAccumulation_blocked (cfg : RTConfig) (now : Int) (sid : String)
    (usage : ℚ) (fid : String) (st : RTEngineState) (u : Int)
    (hlk : mapGet? st.cooldownMap (cooldownKey .accumulation (some sid)) = some u)
    (hnow : now < u) :
    (checkAccumulation cfg now sid usage fid st).1 = none := by
  unfold checkAccumulation
  split
  · rw [gateCooldown_blocked cfg now _ st u hlk hnow]
  · rfl

/-- A failing cooldown check changes nothing. -/
theorem checkCooldown_false_state (cfg : RTConfig) (now : Int)
    (tr : ReflectionTrigger) (st st' : RTEngineState)
    (h : checkCooldown cfg now tr st = (false, st')) : st' = st := by
  unfold checkCooldown at h
  split at h
  · injection h with h1 h2
    exact h2.symm
  · cases h

/-- A delivered trigger from the candidate loop of `checkResourceExhaustion`
opened a cooldown window under the shared resource-exhaustion key. -/
theorem firstPastCooldown_fires (cfg : RTConfig) (now : Int) (sid : String) :
    ∀ (l : List ReflectionTrigger) (st : RTEngineState)
      (tr : ReflectionTrigger) (st' : RTEngineState),
    (∀ t ∈ l, t.type = .resourceExhaustion ∧ t.sessionId = some sid) →
    firstPastCooldown cfg now st l = (some tr, st') →
    mapGet? st'.cooldownMap (cooldownKey .resourceExhaustion (some sid)) =
      some (now + cfg.cooldownMs)
  | [], st, tr, st', _, h => absurd (congrArg Prod.fst h) (by simp [firstPastCooldown])
  | t :: ts, st, tr, st', hall, h => by
      obtain ⟨hty, hsid⟩ := hall t (List.mem_cons_self _ _)
      simp only [firstPastCooldown] at h
      split at h
      · rename_i hok
        rcases hcc : checkCooldown cfg now t st with ⟨ok, st1⟩
        rw [hcc] at hok h
        simp only [] at hok
        subst hok
        have h2 := congrArg Prod.snd h
        simp only [] at h2
        rw [← h2]
        have := checkCooldown_true_map cfg now t st st1 (by rw [hcc])
        rw [hty, hsid] at this
        exact this
      · exact firstPastCooldown_fires cfg now sid ts _ tr st'
          (fun j hj => hall j (List.mem_cons_of_mem _ hj)) h

/-- Inside an open window for the shared key, the candidate loop delivers
nothing. -/
theorem firstPastCooldown_blocked (cfg : RTConfig) (now : Int) (sid : String)
    (u : Int) :
    ∀ (l : List ReflectionTrigger) (st : RTEngineState),
    (∀ t ∈ l, t.type = .resourceExhaustion ∧ t.sessionId = some sid) →
    mapGet? st.cooldownMap (cooldownKey .resourceExhaustion (some sid)) = some u →
    now < u →
    firstPastCooldown cfg now st l = (none, st)
  | [], st, _, _, _ => rfl
  | t :: ts, st, hall, hlk, hnow => by
      obtain ⟨hty, hsid⟩ := hall t (List.mem_cons_self _ _)
      have hblock : checkCooldown cfg now t st = (false, st) := by
        refine checkCooldown_blocked cfg now t st u ?_ hnow
        rw [hty, hsid]
        exact hlk
      simp only [firstPastCooldown, hblock]
      exact firstPastCooldown_blocked cfg now sid u ts st
        (fun j hj => hall j (List.mem_cons_of_mem _ hj)) hlk hnow

/-- Every candidate of `checkResourceExhaustion` carries the shared type and
session. -/
theorem resourceCandidates_shape (cfg : RTConfig) (now : Int) (sid : String)
    (metrics : RTMetrics) (f1 f2 f3 : String) :
    ∀ t ∈ ((if cfg.maxTokens * (9/10) < metrics.tokens
      then [resourceTrigger sid f1 now] else []) ++
     (if cfg.maxSteps * (9/10) < metrics.steps
      then [resourceTrigger sid f2 now] else []) ++
     (if cfg.maxTime * (9/10) < metrics.time
      then [resourceTrigger sid f3 now] else [])),
    t.type = ReflectionTriggerType.resourceExhaustion ∧ t.sessionId = some sid := by
  intro t ht
  rcases List.mem_append.mp ht with hm | hm
  · rcases List.mem_append.mp hm with hm' | hm'
    · split at hm'
      · rw [List.mem_singleton] at hm'
        subst hm'
        exact ⟨rfl, rfl⟩
      · cases hm'
    · split at hm'
      · rw [List.mem_singleton] at hm'
        subst hm'
        exact ⟨rfl, rfl⟩
      · cases hm'
  · split at hm
    · rw [List.mem_singleton] at hm
      subst hm
      exact ⟨rfl, rfl⟩
    · cases hm

/-- **C2 (amended).** For the five cooldown-gated detector kinds —
prediction-error, loop, stagnation, accumulation and resource-exhaustion —
if a call fires for a (type, session) key, a second call for the same key
while still inside the cooldown window opened by the first is suppressed: at
most one of the two delivers a trigger.  The feedback detector bypasses the
cooldown by design — and so does the curiosity detector, which never
consults `checkCooldown` (so two curiosity calls inside one window can both
deliver, contrary to the claim as stated). -/
theorem C2_cooldown_suppression :
    (∀ (cfg : RTConfig) (t1 t2 : Int) (tid tid' : String) (e a e' a' : JVal)
       (sid : Option String) (st : RTEngineState) (tr : ReflectionTrigger)
       (st' : RTEngineState),
      checkPredictionError cfg t1 tid e a sid st = (some tr, st') →
      t2 < t1 + cfg.cooldownMs →
      (checkPredictionError cfg t2 tid' e' a' sid st').1 = none) ∧
    (∀ (cfg : RTConfig) (t1 t2 : Int) (sid : String) (a1 a2 : RTAction)
       (f1 f2 : String) (st : RTEngineState) (tr : ReflectionTrigger)
       (st' : RTEngineState),
      checkLoopDetection cfg t1 sid a1 f1 st = (some tr, st') →
      t2 < t1 + cfg.cooldownMs →
      (checkLoopDetection cfg t2 sid a2 f2 st').1 = none) ∧
    (∀ (cfg : RTConfig) (t1 t2 : Int) (sid : String) (p1 p2 : ℚ)
       (f1 f2 : String) (st : RTEngineState) (tr : ReflectionTrigger)
       (st' : RTEngineState),
      checkStagnation cfg t1 sid p1 f1 st = (some tr, st') →
      t2 < t1 + cfg.cooldownMs →
      (checkStagnation cfg t2 sid p2 f2 st').1 = none) ∧
    (∀ (cfg : RTConfig) (t1 t2 : Int) (sid : String) (u1 u2 : ℚ)
       (f1 f2 : String) (st : RTEngineState) (tr : ReflectionTrigger)
       (st' : RTEngineState),
      checkAccumulation cfg t1 sid u1 f1 st = (some tr, st') →
      t2 < t1 + cfg.cooldownMs →
      (checkAccumulation cfg t2 sid u2 f2 st').1 = none) ∧
    (∀ (cfg : RTConfig) (t1 t2 : Int) (sid : String) (m1 m2 : RTMetrics)
       (f1 f2 f3 g1 g2 g3 : String) (st : RTEngineState)
       (tr : ReflectionTrigger) (st' : RTEngineState),
      checkResourceExhaustion cfg t1 sid m1 f1 f2 f3 st = (some tr, st') →
      t2 < t1 + cfg.cooldownMs →
      (checkResourceExhaustion cfg t2 sid m2 g1 g2 g3 st').1 = none) := by
  refine ⟨?_, ?_, ?_, ?_, ?_⟩
  · intro cfg t1 t2 tid tid' e a e' a' sid st tr st' h hlt
    exact checkPredictionError_blocked cfg t2 tid' e' a' sid st' _
      (checkPredictionError_fires cfg t1 tid e a sid st tr st' h) hlt
  · intro cfg t1 t2 sid a1 a2 f1 f2 st tr st' h hlt
    exact checkLoopDetection_blocked cfg t2 sid a2 f2 st' _
      (checkLoopDetection_fires cfg t1 sid a1 f1 st tr st' h) hlt
  · intro cfg t1 t2 sid p1 p2 f1 f2 st tr st' h hlt
    exact checkStagnation_blocked cfg t2 sid p2 f2 st' _
      (checkStagnation_fires cfg t1 sid p1 f1 st tr st' h) hlt
  · intro cfg t1 t2 sid u1 u2 f1 f2 st tr st' h hlt
    exact checkAccumulation_blocked cfg t2 sid u2 f2 st' _
      (checkAccumulation_fires cfg t1 sid u1 f1 st tr st' h) hlt
  · intro cfg t1 t2 sid m1 m2 f1 f2 f3 g1 g2 g3 st tr st' h hlt
    unfold checkResourceExhaustion at h ⊢
    have hmap := firstPastCooldown_fires cfg t1 sid _ st tr st'
      (resourceCandidates_shape cfg t1 sid m1 f1 f2 f3) h
    rw [firstPastCooldown_blocked cfg t2 sid (t1 + cfg.cooldownMs) _ st'
      (resourceCandidates_shape cfg t2 sid m2 g1 g2 g3) hmap hlt]

/-- Counterexample to C2 as stated: the curiosity detector never consults the
cooldown map, so two same-session curiosity calls one millisecond apart —
well inside the default 30-second window — both return a trigger. -/
theorem C2_counterexample :
    (checkCuriosity 0 "t1" (4/5) (some "s")).isSome = true ∧
    (checkCuriosity 1 "t2" (4/5) (some "s")).isSome = true ∧
    (1 : Int) < 0 + ({} : RTConfig).cooldownMs := by
  refine ⟨?_, ?_, by decide⟩ <;>
    simp [checkCuriosity, CURIOSITY_THRESHOLD, show (7:ℚ)/10 < 4/5 by norm_num]

/-- Witness for C2 at the accumulation detector with the default
configuration: a firing call at time 0 suppresses a second call at time 1. -/
theorem C2_cooldown_suppression_witness :
    (checkAccumulation {} 0 "s" (9/10) "u1" ⟨[], [], []⟩).1.isSome = true ∧
    (checkAccumulation {} 1 "s" (9/10) "u2"
      (checkAccumulation {} 0 "s" (9/10) "u1" ⟨[], [], []⟩).2).1 = none := by
  have hfst : (checkAccumulation {} 0 "s" (9/10) "u1" ⟨[], [], []⟩).1.isSome = true := by
    simp [checkAccumulation, gateCooldown, checkCooldown, mapGet?,
      show ({} : RTConfig).contextWindowThreshold < (9:ℚ)/10 from by norm_num [RTConfig.contextWindowThreshold]]
  refine ⟨hfst, ?_⟩
  rcases hpair : checkAccumulation {} 0 "s" (9/10) "u1" ⟨[], [], []⟩ with ⟨res, st1⟩
  rcases res with _ | tr
  · rw [hpair] at hfst
    simp at hfst
  · exact C2_cooldown_suppression.2.2.2.1 {} 0 1 "s" (9/10) (9/10) "u1" "u2"
      ⟨[], [], []⟩ tr st1 hpair (by decide)

/-! ## Prediction-error scoring claims (C8) -/

/-- Every per-leaf difference pushed by the `compare` closure is `0` or `1`. -/
theorem compareAux_mem01_bounded : ∀ (n : Nat) (e a : JVal),
    sizeOf e + sizeOf a ≤ n → ∀ x ∈ compareAux e a, x = 0 ∨ x = 1 := by
  intro n
  induction n using Nat.strong_induction_on with
  | _ n ih =>
    intro e a hsize x hx
    rw [compareAux.eq_def] at hx
    split at hx
    · rw [List.mem_singleton] at hx
      right
      exact hx
    · split at hx
      · rename_i fs gs hne
        have hinner : ∀ (ks : List String), ∀ y ∈ compareFields fs gs ks,
            y = 0 ∨ y = 1 := by
          intro ks
          induction ks with
          | nil =>
            intro y hy
            rw [compareFields.eq_def] at hy
            cases hy
          | cons k rest ihk =>
            intro y hy
            rw [compareFields.eq_def] at hy
            rcases List.mem_append.mp hy with hy | hy
            · have hfs := jLookup_sizeOf_le fs k
              have hgs := jLookup_sizeOf_le gs k
              have hlt : sizeOf (jLookup fs k) + sizeOf (jLookup gs k) < n := by
                have h1 : sizeOf (JVal.obj fs) = 1 + sizeOf fs := by simp
                have h2 : sizeOf (JVal.obj gs) = 1 + sizeOf gs := by simp
                rw [h1, h2] at hsize
                omega
              exact ih _ hlt _ _ le_rfl y hy
            · exact ihk y hy
        exact hinner _ x hx
      · rw [List.mem_singleton] at hx
        subst hx
        split
        · left; rfl
        · right; rfl

/-- Standalone form of `compareAux_mem01_bounded`. -/
theorem compareAux_mem01 (e a : JVal) : ∀ x ∈ compareAux e a, x = 0 ∨ x = 1 :=
  compareAux_mem01_bounded (sizeOf e + sizeOf a) e a le_rfl

/-- A list of zeroes and ones sums to the number of its ones. -/
theorem sum_eq_count_one : ∀ (l : List ℚ), (∀ x ∈ l, x = 0 ∨ x = 1) →
    l.sum = (l.count 1 : ℚ)
  | [], _ => by simp
  | x :: rest, h => by
      have hrest := sum_eq_count_one rest (fun y hy => h y (List.mem_cons_of_mem _ hy))
      rcases h x (List.mem_cons_self _ _) with hx | hx
      · subst hx
        simp [List.count_cons, hrest]
      · subst hx
        simp [List.count_cons, hrest]
        ring

/-- The delivered trigger of the gate is the candidate. -/
theorem gateCooldown_some_eq (cfg : RTConfig) (now : Int) (tr : ReflectionTrigger)
    (st : RTEngineState) (tr' : ReflectionTrigger) (st' : RTEngineState)
    (h : gateCooldown cfg now tr st = (some tr', st')) : tr' = tr := by
  unfold gateCooldown at h
  rcases hcc : checkCooldown cfg now tr st with ⟨ok, st1⟩
  rw [hcc] at h
  cases ok
  · simp at h
  · simp only [if_true] at h
    have := congrArg Prod.fst h
    simp only [] at this
    exact (Option.some.inj this).symm

/-- **C8.** The prediction-error detector's score is the recursive
field-by-field diff: the number of mismatched leaves divided by the total
number of leaves compared; a trigger is returned only when that score
exceeds the configured threshold, and its level is LOCAL below 0.5,
STRATEGIC below 0.8, and ASPIRATIONAL otherwise. -/
theorem C8_prediction_error_scoring :
    (∀ (e a : JVal), 0 < (compareAux e a).length →
      compareStatesDifference e a =
        ((compareAux e a).count 1 : ℚ) / ((compareAux e a).length : ℚ)) ∧
    (∀ (cfg : RTConfig) (now : Int) (tid : String) (e a : JVal)
       (sid : Option String) (st : RTEngineState) (tr : ReflectionTrigger)
       (st' : RTEngineState),
      checkPredictionError cfg now tid e a sid st = (some tr, st') →
      cfg.predictionErrorThreshold < compareStatesDifference e a ∧
      (compareStatesDifference e a < 1/2 → tr.level = .local_) ∧
      (1/2 ≤ compareStatesDifference e a → compareStatesDifference e a < 4/5 →
        tr.level = .strategic) ∧
      (4/5 ≤ compareStatesDifference e a → tr.level = .aspirational)) := by
  constructor
  · intro e a hlen
    simp only [compareStatesDifference]
    rw [if_pos hlen, sum_eq_count_one (compareAux e a) (compareAux_mem01 e a)]
  · intro cfg now tid e a sid st tr st' h
    unfold checkPredictionError at h
    split at h
    · rename_i hthresh
      have htr := gateCooldown_some_eq _ _ _ _ _ _ h
      subst htr
      refine ⟨hthresh, ?_, ?_, ?_⟩
      · intro hlt
        show determineReflectionLevel (compareStatesDifference e a) = .local_
        unfold determineReflectionLevel
        rw [if_pos hlt]
      · intro hge hlt
        show determineReflectionLevel (compareStatesDifference e a) = .strategic
        unfold determineReflectionLevel
        rw [if_neg (not_lt.mpr hge), if_pos hlt]
      · intro hge
        show determineReflectionLevel (compareStatesDifference e a) = .aspirational
        unfold determineReflectionLevel
        rw [if_neg (not_lt.mpr (le_trans (by norm_num) hge)), if_neg (not_lt.mpr hge)]
    · exact absurd (congrArg Prod.fst h) (by simp)

/-- Witness for C8: comparing the states `1` and `2` gives one mismatched
leaf out of one, score `1`, which fires at level ASPIRATIONAL under the
default threshold. -/
theorem C8_prediction_error_scoring_witness :
    compareStatesDifference (.num 1) (.num 2) = 1 ∧
    (∃ (tr : ReflectionTrigger) (st' : RTEngineState),
      checkPredictionError {} 0 "t" (.num 1) (.num 2) none ⟨[], [], []⟩ =
        (some tr, st') ∧ tr.level = .aspirational) := by
  have hc : compareAux (.num 1) (.num 2) = [1] := by
    rw [compareAux.eq_def]
    norm_num [jsTypeof]
  have hdiff : compareStatesDifference (.num 1) (.num 2) = 1 := by
    have := C8_prediction_error_scoring.1 (.num 1) (.num 2) (by rw [hc]; decide)
    rw [hc] at this
    simpa using this
  refine ⟨hdiff, ?_⟩
  have hsome : (checkPredictionError {} 0 "t" (.num 1) (.num 2) none
      ⟨[], [], []⟩).1.isSome = true := by
    simp [checkPredictionError, hdiff, gateCooldown, checkCooldown, mapGet?,
      show ({} : RTConfig).predictionErrorThreshold < (1:ℚ) from by
        norm_num [RTConfig.predictionErrorThreshold]]
  rcases hpair : checkPredictionError {} 0 "t" (.num 1) (.num 2) none
      ⟨[], [], []⟩ with ⟨res, st'⟩
  rcases res with _ | tr
  · rw [hpair] at hsome
    simp at hsome
  · refine ⟨tr, st', rfl, ?_⟩
    have hb := C8_prediction_error_scoring.2 {} 0 "t" (.num 1) (.num 2) none
      ⟨[], [], []⟩ tr st' hpair
    exact hb.2.2.2 (by rw [hdiff]; norm_num)

/-! ## Task Prosecution sandbox claims (C9) -/

/-- Arguments matching a suspicious pattern fail the sandbox check, whatever
else holds of the tool. -/
theorem sandboxCheck_suspicious (tools : List AceTool) (toolNameV args : JVal)
    (hsusp : argsSuspicious args = true) :
    sandboxCheck tools toolNameV args = false := by
  unfold sandboxCheck
  split
  · rfl
  · split
    · rfl
    · split
      · rfl
      · simp [hsusp]

/-- **C9.** A delivered southbound CONTROL or INSTRUCTION packet whose
serialized tool arguments contain a suspicious fragment (such as
`rm -rf /`) is rejected by the sandbox check: the handler publishes exactly
one northbound FAILURE naming the sandbox cause, never invokes any tool's
`execute`, and — being a total function whose error paths are all converted
to FAILURE reports — throws nothing. -/
theorem C9_suspicious_args_rejected (tools : List AceTool) (cfg : RTConfig)
    (now : Int) (freshId : String) (p : SouthboundPacket) (st : RTEngineState)
    (hcontent : strTrim p.content ≠ "")
    (htarget : p.targetLayer = .taskProsecution)
    (htype : p.type = .control ∨ p.type = .instruction)
    (htool : jsTruthy (jGet p.parameters "tool") = true)
    (hsusp : argsSuspicious (tpArgsOf p.parameters) = true) :
    tpHandleSouthbound tools cfg now freshId true p st =
      (st, [.publishNB (tpFailurePacket p freshId now
        "Sandbox violation: Tool or args not allowed")]) ∧
    invokedExecute (tpHandleSouthbound tools cfg now freshId true p st).2 = false := by
  have hcond : p.targetLayer = AceLayerID.taskProsecution ∧
      (p.type = SouthboundType.control ∨ p.type = SouthboundType.instruction) :=
    ⟨htarget, htype⟩
  have hsb := sandboxCheck_suspicious tools (jGet p.parameters "tool")
    (tpArgsOf p.parameters) hsusp
  have hrun : tpHandleSouthbound tools cfg now freshId true p st =
      (st, [.publishNB (tpFailurePacket p freshId now
        "Sandbox violation: Tool or args not allowed")]) := by
    simp only [tpHandleSouthbound, Bool.not_true, Bool.false_eq_true, if_false,
      hcontent, hcond, not_true, htool, hsb]
    simp
  exact ⟨hrun, by rw [hrun]; rfl⟩

/-- The registered tool of the C9 witness (its schema accepts anything; its
executor is never reached). -/
def c9Tool : AceTool :=
  { name := "shell", schemaOk := fun _ => true, execute := fun _ => .ok .null }

/-- The packet of the C9 witness: a CONTROL call to the `shell` tool whose
arguments ask for `rm -rf /`. -/
def c9Packet : SouthboundPacket :=
  { id := "f47ac10b-58cc-4372-a567-0e02b2c3d479", timestamp := 0, traceId := "t",
    sourceLayer := .cognitiveControl, targetLayer := .taskProsecution,
    type := .control, content := "Execute the cleanup command",
    parameters := .obj (.cons "tool" (.str "shell")
      (.cons "args" (.obj (.cons "cmd" (.str "rm -rf /") .nil)) .nil)) }

/-- Witness for C9: the `rm -rf /` call is rejected with one FAILURE report
and the tool is never executed. -/
theorem C9_suspicious_args_rejected_witness :
    tpHandleSouthbound [c9Tool] {} 0 "u" true c9Packet ⟨[], [], []⟩ =
      (⟨[], [], []⟩, [.publishNB (tpFailurePacket c9Packet "u" 0
        "Sandbox violation: Tool or args not allowed")]) ∧
    invokedExecute (tpHandleSouthbound [c9Tool] {} 0 "u" true c9Packet
      ⟨[], [], []⟩).2 = false :=
  C9_suspicious_args_rejected [c9Tool] {} 0 "u" c9Packet ⟨[], [], []⟩
    (by decide) rfl (Or.inl rfl) (by decide) (by decide)

/-! ## DAG scheduling claims (C3) -/

/-- Every task the plan currently records as `completed` has a corresponding
completion event in the trace so far. -/
def CompInv (plan : List DAGTask) (evs : List EFEvent) : Prop :=
  ∀ (d : String) (u : DAGTask),
    plan.find? (fun t => t.id = d) = some u → u.status = .completed →
    EFEvent.completedSet d ∈ evs

/-- Every INSTRUCTION event in the trace is preceded by a completion event
for each of the dispatched task's dependencies. -/
def GoodEvs (evs : List EFEvent) : Prop :=
  ∀ (pre : List EFEvent) (t : DAGTask) (suf : List EFEvent),
    evs = pre ++ EFEvent.instr t :: suf →
    ∀ d ∈ t.dependencies, EFEvent.completedSet d ∈ pre

theorem compInv_mono (plan : List DAGTask) (evs more : List EFEvent)
    (h : CompInv plan evs) : CompInv plan (evs ++ more) :=
  fun d u hf hs => List.mem_append_left more (h d u hf hs)

/-- `find?` over a map by an id-preserving function. -/
theorem find?_map_id_pres (f : DAGTask → DAGTask) (hf : ∀ t, (f t).id = t.id) :
    ∀ (l : List DAGTask) (d : String),
    (l.map f).find? (fun t => t.id = d) = (l.find? (fun t => t.id = d)).map f
  | [], _ => rfl
  | t :: rest, d => by
      by_cases hd : t.id = d
      · have : (f t).id = d := by rw [hf t, hd]
        simp [List.find?_cons_of_pos, hd, this]
      · have : ¬ ((f t).id = d) := by rw [hf t]; exact hd
        simp only [List.map_cons]
        rw [List.find?_cons_of_neg _ (by simpa using this),
          List.find?_cons_of_neg _ (by simpa using hd)]
        exact find?_map_id_pres f hf rest d

theorem compInv_markExecuting (plan : List DAGTask) (evs : List EFEvent)
    (h : CompInv plan evs) : CompInv (markExecuting plan) evs := by
  intro d u hf hs
  unfold markExecuting at hf
  rw [find?_map_id_pres _ (fun t => by split <;> rfl)] at hf
  rcases hopt : plan.find? (fun t => t.id = d) with _ | u0
  · rw [hopt] at hf
    cases hf
  · rw [hopt] at hf
    simp only [Option.map_some'] at hf
    have hu : u = if isReady plan u0 then { u0 with status := .executing } else u0 :=
      (Option.some.inj hf).symm
    by_cases hr : isReady plan u0
    · rw [hu] at hs
      simp [hr] at hs
    · rw [hu] at hs
      simp only [hr, if_false] at hs
      exact h d u0 hopt hs

/-- How `find?` reads through a first-match status update. -/
theorem find?_setStatusFirst : ∀ (plan : List DAGTask) (taskId : String)
    (stN : TaskStatus) (d : String),
    (setStatusFirst plan taskId stN).find? (fun t => t.id = d) =
      if d = taskId
      then (plan.find? (fun t => t.id = d)).map (fun t => { t with status := stN })
      else plan.find? (fun t => t.id = d)
  | [], _, _, _ => by simp [setStatusFirst]
  | t :: rest, taskId, stN, d => by
      simp only [setStatusFirst]
      by_cases ht : t.id = taskId
      · by_cases hd : d = taskId
        · have htd : t.id = d := by rw [ht, hd]
          rw [if_pos ht, if_pos hd,
            List.find?_cons_of_pos _ (by simpa using (show ({ t with status := stN } : DAGTask).id = d from htd)),
            List.find?_cons_of_pos _ (by simpa using htd)]
          rfl
        · have htd : ¬ (t.id = d) := by rw [ht]; exact fun hc => hd hc.symm
          rw [if_pos ht, if_neg hd,
            List.find?_cons_of_neg _ (by simpa using (show ¬ (({ t with status := stN } : DAGTask).id = d) from htd)),
            List.find?_cons_of_neg _ (by simpa using htd)]
      · by_cases htd : t.id = d
        · by_cases hd : d = taskId
          · exact absurd (hd ▸ htd) ht
          · rw [if_neg ht, if_neg hd, List.find?_cons_of_pos _ (by simpa using htd),
              List.find?_cons_of_pos _ (by simpa using htd)]
        · rw [if_neg ht, List.find?_cons_of_neg _ (by simpa using htd)]
          by_cases hd : d = taskId
          · rw [if_pos hd, List.find?_cons_of_neg _ (by simpa using htd),
              ← if_pos (c := d = taskId) hd
                (t := (rest.find? (fun t => t.id = d)).map (fun t => { t with status := stN }))
                (e := rest.find? (fun t => t.id = d))]
            exact find?_setStatusFirst rest taskId stN d
          · rw [if_neg hd, List.find?_cons_of_neg _ (by simpa using htd)]
            rw [find?_setStatusFirst rest taskId stN d, if_neg hd]

theorem compInv_complete (plan : List DAGTask) (evs : List EFEvent) (taskId : String)
    (h : CompInv plan evs) :
    CompInv (setStatusFirst plan taskId .completed)
      (evs ++ [EFEvent.completedSet taskId]) := by
  intro d u hf hs
  by_cases hd : d = taskId
  · subst hd
    exact List.mem_append_right evs (List.mem_singleton.mpr rfl)
  · rw [find?_setStatusFirst, if_neg hd] at hf
    exact List.mem_append_left _ (h d u hf hs)

theorem compInv_fail (plan : List DAGTask) (evs : List EFEvent) (taskId : String)
    (h : CompInv plan evs) :
    CompInv (setStatusFirst plan taskId .failed) evs := by
  intro d u hf hs
  by_cases hd : d = taskId
  · subst hd
    rw [find?_setStatusFirst, if_pos rfl] at hf
    rcases hopt : plan.find? (fun t => t.id = d) with _ | u0 <;> rw [hopt] at hf
    · cases hf
    · simp only [Option.map_some'] at hf
      rw [← Option.some.inj hf] at hs
      cases hs
  · rw [find?_setStatusFirst, if_neg hd] at hf
    exact h d u hf hs

theorem good_append (evs more : List EFEvent) (hgood : GoodEvs evs)
    (hnew : ∀ t : DAGTask, EFEvent.instr t ∈ more →
      ∀ d ∈ t.dependencies, EFEvent.completedSet d ∈ evs) :
    GoodEvs (evs ++ more) := by
  intro pre t suf hsplit d hd
  rcases List.append_eq_append_iff.mp hsplit with ⟨a, ha1, ha2⟩ | ⟨c, hc1, hc2⟩
  · have hmem : EFEvent.instr t ∈ more := by
      rw [ha2]
      exact List.mem_append_right a (List.mem_cons_self _ _)
    rw [ha1]
    exact List.mem_append_left a (hnew t hmem d hd)
  · cases c with
    | nil =>
        have hpre : evs = pre := by simpa using hc1
        have hmem : EFEvent.instr t ∈ more := by
          rw [← (by simpa using hc2 : EFEvent.instr t :: suf = more)]
          exact List.mem_cons_self _ _
        rw [← hpre]
        exact hnew t hmem d hd
    | cons x c' =>
        have hc2' : x :: (c' ++ more) = EFEvent.instr t :: suf := by
          simpa using hc2.symm
        have hx : x = EFEvent.instr t := (List.cons.inj hc2').1
        have hevs : evs = pre ++ EFEvent.instr t :: c' := by
          rw [hc1, hx]
        exact hgood pre t c' hevs d hd

theorem exec_preserves (plan : List DAGTask) (evs : List EFEvent)
    (hinv : CompInv plan evs) (hgood : GoodEvs evs) :
    CompInv (executeNextTasks plan).1 (evs ++ (executeNextTasks plan).2) ∧
    GoodEvs (evs ++ (executeNextTasks plan).2) := by
  constructor
  · exact compInv_mono _ _ _ (compInv_markExecuting _ _ hinv)
  · apply good_append _ _ hgood
    intro t ht d hd
    simp only [executeNextTasks] at ht
    rcases List.mem_map.mp ht with ⟨t0, ht0, heq⟩
    have ht0t : t0 = t := by cases heq; rfl
    subst ht0t
    have hready : isReady plan t0 = true := (List.mem_filter.mp ht0).2
    unfold isReady at hready
    have hall := (Bool.and_eq_true _ _).mp hready |>.2
    have hdep : depDone plan d = true := List.all_eq_true.mp hall d hd
    unfold depDone at hdep
    rcases hopt : plan.find? (fun u => u.id = d) with _ | u
    · rw [hopt] at hdep
      cases hdep
    · rw [hopt] at hdep
      have hst : u.status = TaskStatus.completed := by simpa using hdep
      exact hinv d u hopt hst

theorem handleTaskCompletion_pos (plan : List DAGTask) (taskId : String)
    (hex : (plan.find? (fun t => t.id = taskId)).isSome = true) :
    handleTaskCompletion plan taskId =
      ((executeNextTasks (setStatusFirst plan taskId TaskStatus.completed)).1,
       EFEvent.completedSet taskId ::
         (executeNextTasks (setStatusFirst plan taskId TaskStatus.completed)).2) := by
  unfold handleTaskCompletion
  rw [if_pos hex]

theorem handleTaskCompletion_neg (plan : List DAGTask) (taskId : String)
    (hex : ¬ ((plan.find? (fun t => t.id = taskId)).isSome = true)) :
    handleTaskCompletion plan taskId = (plan, []) := by
  unfold handleTaskCompletion
  rw [if_neg hex]

theorem handleTaskFailure_pos (plan : List DAGTask) (taskId : String)
    (hex : (plan.find? (fun t => t.id = taskId)).isSome = true) :
    handleTaskFailure plan taskId =
      (setStatusFirst plan taskId TaskStatus.failed,
       [EFEvent.failedSet taskId, EFEvent.nbFailure taskId]) := by
  unfold handleTaskFailure
  rw [if_pos hex]

theorem handleTaskFailure_neg (plan : List DAGTask) (taskId : String)
    (hex : ¬ ((plan.find? (fun t => t.id = taskId)).isSome = true)) :
    handleTaskFailure plan taskId = (plan, []) := by
  unfold handleTaskFailure
  rw [if_neg hex]

theorem applyOp_preserves (plan : List DAGTask) (evs : List EFEvent) (op : EFOp)
    (hinv : CompInv plan evs) (hgood : GoodEvs evs) :
    CompInv (efApplyOp plan op).1 (evs ++ (efApplyOp plan op).2) ∧
    GoodEvs (evs ++ (efApplyOp plan op).2) := by
  cases op with
  | complete taskId =>
      simp only [efApplyOp]
      by_cases hex : (plan.find? (fun t => t.id = taskId)).isSome = true
      · rw [handleTaskCompletion_pos plan taskId hex]
        have hinv1 : CompInv (setStatusFirst plan taskId .completed)
            (evs ++ [EFEvent.completedSet taskId]) := compInv_complete _ _ _ hinv
        have hgood1 : GoodEvs (evs ++ [EFEvent.completedSet taskId]) := by
          apply good_append _ _ hgood
          intro t ht d hd
          simp at ht
        have hmain := exec_preserves _ _ hinv1 hgood1
        constructor
        · dsimp only
          rw [List.append_cons]
          exact hmain.1
        · dsimp only
          rw [List.append_cons]
          exact hmain.2
      · rw [handleTaskCompletion_neg plan taskId hex]
        simp only [List.append_nil]
        exact ⟨hinv, hgood⟩
  | fail taskId =>
      simp only [efApplyOp]
      by_cases hex : (plan.find? (fun t => t.id = taskId)).isSome = true
      · rw [handleTaskFailure_pos plan taskId hex]
        constructor
        · exact compInv_mono _ _ _ (compInv_fail _ _ _ hinv)
        · apply good_append _ _ hgood
          intro t ht d hd
          simp at ht
      · rw [handleTaskFailure_neg plan taskId hex]
        simp only [List.append_nil]
        exact ⟨hinv, hgood⟩

theorem efRunOps_cons (plan : List DAGTask) (op : EFOp) (ops : List EFOp) :
    efRunOps plan (op :: ops) =
      ((efRunOps (efApplyOp plan op).1 ops).1,
       (efApplyOp plan op).2 ++ (efRunOps (efApplyOp plan op).1 ops).2) := rfl

theorem runOps_preserves : ∀ (ops : List EFOp) (plan : List DAGTask)
    (evs : List EFEvent), CompInv plan evs → GoodEvs evs →
    CompInv (efRunOps plan ops).1 (evs ++ (efRunOps plan ops).2) ∧
    GoodEvs (evs ++ (efRunOps plan ops).2)
  | [], plan, evs, hinv, hgood => by
      simpa [efRunOps] using And.intro hinv hgood
  | op :: ops, plan, evs, hinv, hgood => by
      have h1 := applyOp_preserves plan evs op hinv hgood
      have h2 := runOps_preserves ops (efApplyOp plan op).1
        (evs ++ (efApplyOp plan op).2) h1.1 h1.2
      rw [efRunOps_cons]
      constructor
      · dsimp only
        rw [← List.append_assoc]
        exact h2.1
      · dsimp only
        rw [← List.append_assoc]
        exact h2.2

theorem runPlan_good (tasks : List DAGTask) (ops : List EFOp) :
    GoodEvs (efRunPlan tasks ops).2 := by
  have hinv0 : CompInv
      (tasks.map (fun t => { t with status := TaskStatus.pending })) [] := by
    intro d u hf hs
    have hmem := List.mem_of_find?_eq_some hf
    rcases List.mem_map.mp hmem with ⟨t0, _, heq⟩
    rw [← heq] at hs
    exact absurd hs (by simp)
  have hgood0 : GoodEvs ([] : List EFEvent) := by
    intro pre t suf hsplit d hd
    exact absurd hsplit (by simp)
  have h1 := exec_preserves _ _ hinv0 hgood0
  have h2 := runOps_preserves ops _ _ h1.1 h1.2
  have hrw : (efRunPlan tasks ops).2 =
      (executeNextTasks
        (tasks.map (fun t => { t with status := TaskStatus.pending }))).2 ++
      (efRunOps (executeNextTasks
        (tasks.map (fun t => { t with status := TaskStatus.pending }))).1 ops).2 := rfl
  rw [hrw]
  simpa using h2.2

/-- The terminal-plan notion of the claim: every stored task is `completed`
or `failed`. -/
def allTerminal (plan : List DAGTask) : Prop :=
  ∀ t ∈ plan, t.status = TaskStatus.completed ∨ t.status = TaskStatus.failed

theorem map_self_of_id : ∀ (l : List DAGTask) (f : DAGTask → DAGTask),
    (∀ t ∈ l, f t = t) → l.map f = l
  | [], _, _ => rfl
  | t :: ts, f, h => by
      simp only [List.map_cons]
      rw [h t (List.mem_cons_self t ts),
        map_self_of_id ts f (fun u hu => h u (List.mem_cons_of_mem t hu))]

theorem exec_terminal (plan : List DAGTask) (hterm : allTerminal plan) :
    executeNextTasks plan = (plan, []) := by
  unfold executeNextTasks markExecuting
  have hfil : plan.filter (isReady plan) = [] := by
    rw [List.filter_eq_nil_iff]
    intro t ht
    rcases hterm t ht with hc | hc <;> simp [isReady, hc]
  have hmap : plan.map
      (fun t => if isReady plan t then { t with status := .executing } else t) =
      plan := by
    apply map_self_of_id
    intro t ht
    rcases hterm t ht with hc | hc <;> simp [isReady, hc]
  rw [hfil, hmap]
  rfl

theorem setStatusFirst_terminal : ∀ (plan : List DAGTask) (taskId : String)
    (stN : TaskStatus), allTerminal plan →
    (stN = TaskStatus.completed ∨ stN = TaskStatus.failed) →
    allTerminal (setStatusFirst plan taskId stN)
  | [], taskId, stN, _, _ => by
      intro t ht
      simp [setStatusFirst] at ht
  | u :: rest, taskId, stN, hterm, hstN => by
      intro t ht
      simp only [setStatusFirst] at ht
      by_cases hu : u.id = taskId
      · rw [if_pos hu] at ht
        rcases List.mem_cons.mp ht with heq | hmem
        · subst heq
          exact hstN
        · exact hterm t (List.mem_cons_of_mem u hmem)
      · rw [if_neg hu] at ht
        rcases List.mem_cons.mp ht with heq | hmem
        · subst heq
          exact hterm t (List.mem_cons_self t rest)
        · exact setStatusFirst_terminal rest taskId stN
            (fun v hv => hterm v (List.mem_cons_of_mem u hv)) hstN t hmem

theorem runOps_terminal : ∀ (ops : List EFOp) (plan : List DAGTask),
    allTerminal plan →
    allTerminal (efRunOps plan ops).1 ∧
    ∀ t : DAGTask, EFEvent.instr t ∉ (efRunOps plan ops).2
  | [], plan, hterm => by
      refine ⟨hterm, ?_⟩
      intro t ht
      simp [efRunOps] at ht
  | op :: ops, plan, hterm => by
      have happ : allTerminal (efApplyOp plan op).1 ∧
          ∀ t : DAGTask, EFEvent.instr t ∉ (efApplyOp plan op).2 := by
        cases op with
        | complete taskId =>
            show allTerminal (handleTaskCompletion plan taskId).1 ∧
              ∀ t : DAGTask, EFEvent.instr t ∉ (handleTaskCompletion plan taskId).2
            by_cases hex : (plan.find? (fun t => t.id = taskId)).isSome = true
            · have hterm1 : allTerminal (setStatusFirst plan taskId .completed) :=
                setStatusFirst_terminal plan taskId _ hterm (Or.inl rfl)
              have hpair : handleTaskCompletion plan taskId =
                  (setStatusFirst plan taskId TaskStatus.completed,
                   [EFEvent.completedSet taskId]) := by
                rw [handleTaskCompletion_pos plan taskId hex,
                  exec_terminal _ hterm1]
              rw [hpair]
              refine ⟨hterm1, ?_⟩
              intro t ht
              simp at ht
            · rw [handleTaskCompletion_neg plan taskId hex]
              exact ⟨hterm, fun t ht => by simp at ht⟩
        | fail taskId =>
            show allTerminal (handleTaskFailure plan taskId).1 ∧
              ∀ t : DAGTask, EFEvent.instr t ∉ (handleTaskFailure plan taskId).2
            by_cases hex : (plan.find? (fun t => t.id = taskId)).isSome = true
            · rw [handleTaskFailure_pos plan taskId hex]
              refine ⟨setStatusFirst_terminal plan taskId _ hterm (Or.inr rfl), ?_⟩
              intro t ht
              simp at ht
            · rw [handleTaskFailure_neg plan taskId hex]
              exact ⟨hterm, fun t ht => by simp at ht⟩
      have hrec := runOps_terminal ops (efApplyOp plan op).1 happ.1
      rw [efRunOps_cons]
      refine ⟨hrec.1, ?_⟩
      intro t ht
      dsimp only at ht
      rcases List.mem_append.mp ht with h | h
      · exact happ.2 t h
      · exact hrec.2 t h

/-- **C3**: DAG scheduling.  (1) Over a plan's whole life — the PLAN packet
stores every task as `pending`, `executeNextTasks` dispatches, then
completion/failure notifications arrive in sequence — every INSTRUCTION
dispatched for a task is preceded in the event trace by a completion event
(the moment a status is set to `completed`) for each of that task's
dependencies; so if B depends on A, B is never dispatched before A is
completed.  (2) Once every task in the plan is terminal (`completed` or
`failed`), no notification sequence makes the layer dispatch any further
INSTRUCTION. -/
theorem C3_dag_scheduling :
    (∀ (tasks : List DAGTask) (ops : List EFOp)
       (pre : List EFEvent) (t : DAGTask) (suf : List EFEvent),
       (efRunPlan tasks ops).2 = pre ++ EFEvent.instr t :: suf →
       ∀ d ∈ t.dependencies, EFEvent.completedSet d ∈ pre) ∧
    (∀ (plan : List DAGTask) (ops : List EFOp), allTerminal plan →
       ∀ t : DAGTask, EFEvent.instr t ∉ (efRunOps plan ops).2) := by
  constructor
  · intro tasks ops pre t suf hsplit d hd
    exact runPlan_good tasks ops pre t suf hsplit d hd
  · intro plan ops hterm t
    exact (runOps_terminal ops plan hterm).2 t

/-- Witness plan: task `B` depends on task `A`. -/
def c3A : DAGTask := { id := "A", dependencies := [] }

/-- Witness task `B`, dependent on `A`. -/
def c3B : DAGTask := { id := "B", dependencies := ["A"] }

/-- The already-terminal one-task plan for part (2) of the witness. -/
def c3Done : DAGTask := { id := "A", dependencies := [], status := .completed }

theorem C3_dag_scheduling_witness :
    EFEvent.completedSet "A" ∈
      ([EFEvent.instr c3A, EFEvent.completedSet "A"] : List EFEvent) ∧
    EFEvent.instr c3B ∉ (efRunOps [c3Done] [EFOp.complete "A"]).2 :=
  ⟨C3_dag_scheduling.1 [c3A, c3B] [EFOp.complete "A"]
      [EFEvent.instr c3A, EFEvent.completedSet "A"] c3B [] (by decide) "A"
      (by decide),
   C3_dag_scheduling.2 [c3Done] [EFOp.complete "A"]
      (by
        intro t ht
        rw [List.mem_singleton] at ht
        subst ht
        exact Or.inl rfl) c3B⟩
